import Mathlib

/-!
Shallow embedding of the conversation context engine of `src/ai/context_manager.py`
(repository PruebaTecnicaAOVA), together with theorems settling the claims about it.

Modelling conventions, used uniformly below:
* Python `float` wall-clock times carry no arithmetic in this code other than being
  stored and compared, so every clock reading (`time.time()`, `int(time.time()*1000)`)
  is modelled as an integer tick supplied by the caller of each operation; one tick is
  used for all clock reads inside a single call (the source reads the clock up to three
  times within one call, microseconds apart).
* Python `dict` values are modelled as association lists in insertion order, which is
  exactly the observable behaviour of `dict` (insertion-ordered keys, `[]`/`get`
  lookup, assignment keeping the position of an existing key).
* JSON values are modelled by the inductive type `Json`; `json.dump`/`json.load` is a
  lossless round trip on this domain, so file contents are carried as `Json` values.
* `uuid.uuid4()` and other sources of fresh identifiers are passed in as arguments.
-/

set_option maxRecDepth 4000

/-- JSON-like dynamic values (Python objects that `json` can serialize). Objects are
insertion-ordered association lists, as Python dicts are. -/
inductive Json where
  | null : Json
  | bool : Bool → Json
  | num : Int → Json
  | str : String → Json
  | arr : List Json → Json
  | obj : List (String × Json) → Json

/-- Lookup of a key in a JSON object association list (Python `d[k]` / `d.get(k)`). -/
def jLookup (l : List (String × Json)) (k : String) : Option Json :=
  match l with
  | [] => none
  | (k', v) :: rest => if k' = k then some v else jLookup rest k

/-- Enum `MessageType` of the source (`user_text`, `user_audio`, `agent_response`,
`system_info`, `lead_update`). -/
inductive MessageType where
  | user_text : MessageType
  | user_audio : MessageType
  | agent_response : MessageType
  | system_info : MessageType
  | lead_update : MessageType
deriving DecidableEq

/-- String `.value` of a `MessageType`, as serialized by `to_dict`. -/
def messageTypeValue : MessageType → String
  | .user_text => "user_text"
  | .user_audio => "user_audio"
  | .agent_response => "agent_response"
  | .system_info => "system_info"
  | .lead_update => "lead_update"

/-- Python `MessageType(s)`: succeeds on the five known values, raises (here: `none`)
otherwise. -/
def messageTypeOfString (s : String) : Option MessageType :=
  if s = "user_text" then some .user_text
  else if s = "user_audio" then some .user_audio
  else if s = "agent_response" then some .agent_response
  else if s = "system_info" then some .system_info
  else if s = "lead_update" then some .lead_update
  else none

/-- Enum `ConversationPhase` of the source, in its declaration (= dict insertion)
order. -/
inductive ConversationPhase where
  | introduction : ConversationPhase
  | discovery : ConversationPhase
  | qualification : ConversationPhase
  | presentation : ConversationPhase
  | objection_handling : ConversationPhase
  | closing : ConversationPhase
  | follow_up : ConversationPhase
deriving DecidableEq

/-- String `.value` of a `ConversationPhase`. -/
def phaseValue : ConversationPhase → String
  | .introduction => "introduction"
  | .discovery => "discovery"
  | .qualification => "qualification"
  | .presentation => "presentation"
  | .objection_handling => "objection_handling"
  | .closing => "closing"
  | .follow_up => "follow_up"

/-- Python `ConversationPhase(s)`. -/
def phaseOfString (s : String) : Option ConversationPhase :=
  if s = "introduction" then some .introduction
  else if s = "discovery" then some .discovery
  else if s = "qualification" then some .qualification
  else if s = "presentation" then some .presentation
  else if s = "objection_handling" then some .objection_handling
  else if s = "closing" then some .closing
  else if s = "follow_up" then some .follow_up
  else none

/-- Position of a phase in the enumeration order of the source. -/
def phaseIdx : ConversationPhase → Nat
  | .introduction => 0
  | .discovery => 1
  | .qualification => 2
  | .presentation => 3
  | .objection_handling => 4
  | .closing => 5
  | .follow_up => 6

/-- The seven phases in enumeration order (= iteration order of the
`phase_keywords` dict in `analyze_conversation_phase`). -/
def phaseList : List ConversationPhase :=
  [.introduction, .discovery, .qualification, .presentation,
   .objection_handling, .closing, .follow_up]

/-- Lowercasing of one character, covering the alphabet that occurs in this code base
(ASCII letters plus the accented Spanish capitals); agrees with Python `str.lower`
there and is the identity elsewhere. -/
def lowerChar (c : Char) : Char :=
  if 'A' ≤ c ∧ c ≤ 'Z' then Char.ofNat (c.toNat + 32)
  else if c = 'Á' then 'á'
  else if c = 'É' then 'é'
  else if c = 'Í' then 'í'
  else if c = 'Ó' then 'ó'
  else if c = 'Ú' then 'ú'
  else if c = 'Ñ' then 'ñ'
  else c

/-- Python `s.lower()`. -/
def lower (s : String) : String :=
  ⟨s.data.map lowerChar⟩

/-- Boolean test that the first list is an initial segment of the second. -/
def listStartsWith : List Char → List Char → Bool
  | [], _ => true
  | _ :: _, [] => false
  | a :: as, b :: bs => a = b && listStartsWith as bs

/-- Boolean test that the first list occurs contiguously inside the second. -/
def listContainsSub : List Char → List Char → Bool
  | needle, [] => listStartsWith needle []
  | needle, b :: bs => listStartsWith needle (b :: bs) || listContainsSub needle bs

/-- Python substring containment `needle in hay`. -/
def strContains (hay needle : String) : Bool :=
  listContainsSub needle.data hay.data

/-- Python `" ".join(l)`. -/
def joinSpace (l : List String) : String :=
  String.intercalate " " l

/-- Python slice `l[-n:]` for `n > 0` (and `l[0:]`, i.e. the whole list, for `n = 0`,
as Python's `l[-0:]` is). -/
def lastN (n : Nat) (l : List α) : List α :=
  if n = 0 then l else l.drop (l.length - n)

/-- Python `text.split(".")`. -/
def splitDot (s : String) : List String :=
  s.splitOn "."

/-- Python whitespace characters stripped by `str.strip()` (ASCII part; the inputs in
this code base contain no exotic Unicode spaces). -/
def isPySpace (c : Char) : Bool :=
  c = ' ' ∨ c = '\t' ∨ c = '\n' ∨ c = '\r' ∨ c = Char.ofNat 11 ∨ c = Char.ofNat 12

/-- Python `s.strip()`. -/
def pyStrip (s : String) : String :=
  ⟨((s.data.dropWhile isPySpace).reverse.dropWhile isPySpace).reverse⟩

/-- Decimal digit list (most significant first) of a positive number, with fuel; the
fuel argument only has to dominate the number. -/
def natToDigits : Nat → Nat → List Char
  | _, 0 => []
  | 0, _ + 1 => []
  | fuel + 1, m + 1 => natToDigits fuel ((m + 1) / 10) ++ [Nat.digitChar ((m + 1) % 10)]

/-- Decimal rendering of a natural number, as Python `str`/f-strings produce it. -/
def natRepr (n : Nat) : String :=
  if n = 0 then "0" else ⟨natToDigits n n⟩

/-- Decimal rendering of an integer, as Python `str`/f-strings produce it. -/
def intRepr : Int → String
  | .ofNat n => natRepr n
  | .negSucc n => "-" ++ natRepr (n + 1)

/-- The message id string `f"msg_{len(messages)}_{int(time.time() * 1000)}"` of
`add_message`. -/
def idRender (len : Nat) (t : Int) : String :=
  "msg_" ++ natRepr len ++ "_" ++ intRepr t

/-- Dataclass `ConversationMessage` of the source. `metadata` is `Optional[Dict]`;
`timestamp` is a clock tick (see the header note on clocks). -/
structure ConversationMessage where
  id : String
  role : String
  content : String
  message_type : MessageType
  timestamp : Int
  metadata : Option (List (String × Json))

/-- Dataclass `ConversationSummary` of the source. -/
structure ConversationSummary where
  key_points : List String
  mentioned_needs : List String
  objections_raised : List String
  interests_shown : List String
  next_actions : List String
  last_updated : Int

/-- Dataclass `ConversationContext` of the source. -/
structure ConversationContext where
  session_id : String
  lead_id : String
  start_time : Int
  last_activity : Int
  current_phase : ConversationPhase
  messages : List ConversationMessage
  summary : ConversationSummary
  lead_info : List (String × Json)
  total_interactions : Int

/-- State of a `ContextManager` instance. The Supabase client is modelled by the flag
`has_db_client` (whether `db_client` is set) plus gateway responses passed into the
operations that consult it. `contexts_cache` is initialized and never used by the
source. -/
structure ContextManager where
  max_context_messages : Nat
  current_context : Option ConversationContext
  contexts_cache : List (String × ConversationContext)
  has_db_client : Bool

/-- Source `ContextManager.start_new_conversation`. `now` is the clock tick and
`fresh_uuid` the value of `str(uuid.uuid4())`. Returns the new state and the
session id. -/
def start_new_conversation (mgr : ContextManager) (lead_id : Option String)
    (now : Int) (fresh_uuid : String) : ContextManager × String :=
  let session_id := "session_" ++ intRepr now
  let effective_lead_id := match lead_id with
    | some l => if l = "" then fresh_uuid else l
    | none => fresh_uuid
  ({ mgr with
      current_context := some
        { session_id := session_id
          lead_id := effective_lead_id
          start_time := now
          last_activity := now
          current_phase := .introduction
          messages := []
          summary :=
            { key_points := []
              mentioned_needs := []
              objections_raised := []
              interests_shown := []
              next_actions := []
              last_updated := now }
          lead_info := []
          total_interactions := 0 } },
   session_id)

/-- Arguments of one `add_message` call, together with the clock tick and fresh uuid
for that call. -/
structure AddCall where
  role : String
  content : String
  message_type : MessageType
  metadata : Option (List (String × Json))
  now : Int
  uuid : String

/-- The `ConversationMessage` value that `add_message` constructs for a given call:
its id index is the length of the message list at that moment (0 right after an
implicit `start_new_conversation`), and `metadata or {}` defaults a missing metadata
dict to `{}`. -/
def builtMessage (mgr : ContextManager) (c : AddCall) : ConversationMessage :=
  let len := match mgr.current_context with
    | some ctx => ctx.messages.length
    | none => 0
  { id := idRender len c.now
    role := c.role
    content := c.content
    message_type := c.message_type
    timestamp := c.now
    metadata := some (c.metadata.getD []) }

/-- Retention policy of `add_message`: once the list is longer than
`max_context_messages * 2`, keep the first 3 messages and the last
`max_context_messages` ones. -/
def retainMessages (w : Nat) (msgs : List ConversationMessage) : List ConversationMessage :=
  if msgs.length > w * 2 then msgs.take 3 ++ lastN w msgs else msgs

/-- Source `ContextManager.add_message`. Starts a conversation implicitly when none
is active, appends the built message, bumps `last_activity` and
`total_interactions`, and applies the retention policy. Returns the new state and
the message id. -/
def add_message (mgr : ContextManager) (c : AddCall) : ContextManager × String :=
  let mgr0 := match mgr.current_context with
    | some _ => mgr
    | none => (start_new_conversation mgr none c.now c.uuid).1
  match mgr0.current_context with
  | none => (mgr0, "")
  | some ctx =>
    let message := builtMessage mgr c
    let msgs := ctx.messages ++ [message]
    ({ mgr0 with
        current_context := some
          { ctx with
              messages := retainMessages mgr0.max_context_messages msgs
              last_activity := c.now
              total_interactions := ctx.total_interactions + 1 } },
     message.id)

/-- Fold of a sequence of `add_message` calls over a manager, also returning the
trace of message values built along the way (the arrival sequence of turns). -/
def runAddsTrace (mgr : ContextManager) (calls : List AddCall) :
    ContextManager × List ConversationMessage :=
  calls.foldl
    (fun p c => ((add_message p.1 c).1, p.2 ++ [builtMessage p.1 c]))
    (mgr, [])

/-- Keyword sets of `analyze_conversation_phase`, keyed by phase (the dict literal of
the source, in insertion order = `phaseList` order). -/
def phase_keywords : ConversationPhase → List String
  | .introduction => ["hola", "buenos días", "me llamo", "soy", "empresa"]
  | .discovery => ["necesito", "problema", "buscamos", "queremos", "ayuda"]
  | .qualification => ["presupuesto", "timeline", "cuándo", "inversión", "costo"]
  | .presentation => ["cómo funciona", "características", "beneficios", "demo"]
  | .objection_handling => ["pero", "sin embargo", "preocupa", "duda", "no estoy seguro"]
  | .closing => ["empezar", "contratar", "siguiente paso", "propuesta", "reunión"]
  | .follow_up => ["después", "próxima", "contactar", "llamar", "email"]

/-- Score of one phase: `sum(1 for keyword in keywords if keyword in conversation_text)`. -/
def phaseScore (text : String) (p : ConversationPhase) : Nat :=
  (phase_keywords p).countP (fun kw => strContains text kw)

/-- Scored phase list, mirroring the `phase_scores` dict in insertion order. -/
def phase_scores_list (text : String) : List (ConversationPhase × Nat) :=
  phaseList.map (fun p => (p, phaseScore text p))

/-- Python `max(items, key=lambda x: x[1])` over a nonempty list presented as head and
tail: keeps the current maximum item, replacing it only on a strictly greater score,
so the first item attaining the maximum wins. -/
def pyFold (xs : List (α × Nat)) (x : α × Nat) : α × Nat :=
  xs.foldl (fun best y => if y.2 > best.2 then y else best) x

/-- The text scored by `analyze_conversation_phase`: the space-joined lowercased
contents of the user-role messages among the last 6 messages of the conversation
(`[msg.content.lower() for msg in messages[-6:] if msg.role == "user"]`). -/
def recent_user_text (ctx : ConversationContext) : String :=
  joinSpace (((lastN 6 ctx.messages).filter (fun m => m.role == "user")).map
    (fun m => lower m.content))

/-- Source `ContextManager.analyze_conversation_phase`. With no active context or
fewer than 2 messages it returns `introduction` without touching the state; otherwise
it scores the recent user text, takes the maximum (ties to the first phase in dict
order), stores it in `current_phase` and returns it. The `else` branch of the
source's `if phase_scores:` guard corresponds to the empty-list case of the match,
which is unreachable because the scored list always has 7 entries. -/
def analyze_conversation_phase (mgr : ContextManager) :
    ContextManager × ConversationPhase :=
  match mgr.current_context with
  | none => (mgr, .introduction)
  | some ctx =>
    if ctx.messages.length < 2 then (mgr, .introduction)
    else
      let conversation_text := recent_user_text ctx
      match phase_scores_list conversation_text with
      | [] => (mgr, ctx.current_phase)
      | x :: xs =>
        let detected_phase := (pyFold xs x).1
        ({ mgr with current_context := some { ctx with current_phase := detected_phase } },
         detected_phase)

/-- Need trigger keywords of `update_conversation_summary`. -/
def need_keywords : List String :=
  ["necesito", "necesitamos", "buscamos", "queremos", "requiero"]

/-- Objection trigger keywords of `update_conversation_summary`. -/
def objection_keywords : List String :=
  ["pero", "sin embargo", "problema", "preocupa", "duda"]

/-- Inner loop of the summary extractor for one keyword: walk the sentences and
append `sentence.strip()` for every sentence containing the keyword whose stripped
form is not already in the accumulated list. -/
def sweepKeyword (sentences : List String) (kw : String) (acc : List String) :
    List String :=
  sentences.foldl
    (fun acc s =>
      if strContains s kw ∧ pyStrip s ∉ acc then acc ++ [pyStrip s] else acc)
    acc

/-- Outer loop of the summary extractor: for each keyword present in the text, sweep
the sentence list of the text. -/
def sweepAll (text : String) (kws : List String) (acc : List String) : List String :=
  kws.foldl
    (fun acc kw => if strContains text kw then sweepKeyword (splitDot text) kw acc else acc)
    acc

/-- The text analyzed by `update_conversation_summary`: contents of the user-role
messages among the last 10 messages (space-joined, then lowercased). -/
def recent_summary_messages (ctx : ConversationContext) : List String :=
  ((lastN 10 ctx.messages).filter (fun m => m.role == "user")).map (fun m => m.content)

/-- Source `ContextManager.update_conversation_summary`: a no-op without an active
context, with fewer than 3 messages, or with no recent user message; otherwise it
sweeps need and objection keywords into the two summary lists and stamps
`last_updated`. -/
def update_conversation_summary (mgr : ContextManager) (now : Int) : ContextManager :=
  match mgr.current_context with
  | none => mgr
  | some ctx =>
    if ctx.messages.length < 3 then mgr
    else
      let recent := recent_summary_messages ctx
      if recent.isEmpty then mgr
      else
        let conversation_text := lower (joinSpace recent)
        let needs := sweepAll conversation_text need_keywords ctx.summary.mentioned_needs
        let objections :=
          sweepAll conversation_text objection_keywords ctx.summary.objections_raised
        { mgr with
            current_context := some
              { ctx with
                  summary :=
                    { ctx.summary with
                        mentioned_needs := needs
                        objections_raised := objections
                        last_updated := now } } }

/-- Assignment `d[k] = v` on an insertion-ordered dict: replaces in place when the
key exists, appends otherwise. -/
def setKey (l : List (String × Json)) (k : String) (v : Json) : List (String × Json) :=
  match l with
  | [] => [(k, v)]
  | (k', v') :: rest =>
    if k' = k then (k, v) :: rest else (k', v') :: setKey rest k v

/-- Source `ContextManager._deep_update`: recursive merge of nested dicts, the update
winning at non-dict leaves. -/
def deep_update : List (String × Json) → List (String × Json) → List (String × Json)
  | base, [] => base
  | base, (k, v) :: rest =>
    let base' :=
      match jLookup base k, v with
      | some (Json.obj b), Json.obj u => setKey base k (Json.obj (deep_update b u))
      | _, _ => setKey base k v
    deep_update base' rest

/-- Responses of the persistence gateway (`db_client`) to the lead operations used by
`update_lead_info`, supplied per call. `create_lead` returns the new id or a falsy
value (modelled by `none` / the empty string). -/
structure DbGateway where
  get_lead : String → Option Json
  create_lead : List (String × Json) → Option String

/-- Observable calls issued to the persistence gateway. -/
inductive DbCall where
  | getLead : String → DbCall
  | updateLead : String → DbCall
  | createLead : DbCall

/-- Source `ContextManager._save_or_update_lead_in_db` (gateway effects are returned
as a call log). -/
def save_or_update_lead_in_db (mgr : ContextManager) (lead_info : List (String × Json))
    (db : DbGateway) : ContextManager × List DbCall :=
  match mgr.current_context with
  | none => (mgr, [])
  | some ctx =>
    match db.get_lead ctx.lead_id with
    | some _ => (mgr, [DbCall.getLead ctx.lead_id, DbCall.updateLead ctx.lead_id])
    | none =>
      match db.create_lead lead_info with
      | some new_lead_id =>
        if new_lead_id = "" then (mgr, [DbCall.getLead ctx.lead_id, DbCall.createLead])
        else
          ({ mgr with current_context := some { ctx with lead_id := new_lead_id } },
           [DbCall.getLead ctx.lead_id, DbCall.createLead])
      | none => (mgr, [DbCall.getLead ctx.lead_id, DbCall.createLead])

/-- The apostrophe character, written by code point to keep it out of the literals. -/
def squote : Char := Char.ofNat 39

/-- Python rendering of `list(d.keys())`, as interpolated into the `lead_update`
message content. -/
def renderKeysPy (keys : List String) : String :=
  "[" ++ String.intercalate ", " (keys.map (fun k => squote.toString ++ k ++ squote.toString))
    ++ "]"

/-- Source `ContextManager.update_lead_info`: without an active context it returns
immediately; otherwise it deep-merges the new info, talks to the gateway when a db
client is configured, and appends a `lead_update` system message. -/
def update_lead_info (mgr : ContextManager) (new_info : List (String × Json))
    (db : DbGateway) (now : Int) (fresh_uuid : String) : ContextManager × List DbCall :=
  match mgr.current_context with
  | none => (mgr, [])
  | some ctx =>
    let ctx1 := { ctx with lead_info := deep_update ctx.lead_info new_info }
    let mgr1 := { mgr with current_context := some ctx1 }
    let (mgr2, calls) :=
      if mgr1.has_db_client then save_or_update_lead_in_db mgr1 new_info db
      else (mgr1, [])
    let keys := new_info.map (fun kv => kv.1)
    let (mgr3, _) := add_message mgr2
      { role := "system"
        content := "Lead information updated: " ++ renderKeysPy keys
        message_type := .lead_update
        metadata := some [("updated_fields", Json.arr (keys.map Json.str))]
        now := now
        uuid := fresh_uuid }
    (mgr3, calls)

/-- Element-wise fallible map, modelling a Python loop that rebuilds a list and
propagates the first exception. -/
def mapOption (f : α → Option β) : List α → Option (List β)
  | [] => some []
  | a :: as =>
    match f a, mapOption f as with
    | some b, some bs => some (b :: bs)
    | _, _ => none

/-- Read a JSON value as a string, failing on any other shape. -/
def jsonToStr : Json → Option String
  | Json.str s => some s
  | _ => none

/-- Source `ConversationMessage.to_dict`: `asdict` in field order, with the
`message_type` enum replaced by its string value. -/
def ConversationMessage.to_dict (m : ConversationMessage) : Json :=
  Json.obj
    [("id", Json.str m.id),
     ("role", Json.str m.role),
     ("content", Json.str m.content),
     ("message_type", Json.str (messageTypeValue m.message_type)),
     ("timestamp", Json.num m.timestamp),
     ("metadata", match m.metadata with | none => Json.null | some d => Json.obj d)]

/-- Serialization `asdict(self.summary)` in field order. -/
def summaryToDict (s : ConversationSummary) : Json :=
  Json.obj
    [("key_points", Json.arr (s.key_points.map Json.str)),
     ("mentioned_needs", Json.arr (s.mentioned_needs.map Json.str)),
     ("objections_raised", Json.arr (s.objections_raised.map Json.str)),
     ("interests_shown", Json.arr (s.interests_shown.map Json.str)),
     ("next_actions", Json.arr (s.next_actions.map Json.str)),
     ("last_updated", Json.num s.last_updated)]

/-- Source `ConversationContext.to_dict`. -/
def ConversationContext.to_dict (ctx : ConversationContext) : Json :=
  Json.obj
    [("session_id", Json.str ctx.session_id),
     ("lead_id", Json.str ctx.lead_id),
     ("start_time", Json.num ctx.start_time),
     ("last_activity", Json.num ctx.last_activity),
     ("current_phase", Json.str (phaseValue ctx.current_phase)),
     ("messages", Json.arr (ctx.messages.map ConversationMessage.to_dict)),
     ("summary", summaryToDict ctx.summary),
     ("lead_info", Json.obj ctx.lead_info),
     ("total_interactions", Json.num ctx.total_interactions)]

/-- Reconstruction of one message inside `load_context` /
`load_conversation_from_db`: `id`, `role`, `content`, `message_type` and `timestamp`
are required (a missing key raises, an unknown `message_type` string raises
`ValueError`), `metadata` defaults to `{}` when absent and is kept as `None` when
null. Values that cannot inhabit the typed field (for example a non-string id, which
the dynamically-typed source would store unchecked) make the parse fail. -/
def parseMessage (j : Json) : Option ConversationMessage :=
  match j with
  | Json.obj fields =>
    match jLookup fields "id", jLookup fields "role", jLookup fields "content",
        jLookup fields "message_type", jLookup fields "timestamp" with
    | some (Json.str i), some (Json.str r), some (Json.str c),
        some (Json.str mt), some (Json.num ts) =>
      match messageTypeOfString mt with
      | none => none
      | some mtype =>
        match jLookup fields "metadata" with
        | none =>
          some { id := i, role := r, content := c, message_type := mtype,
                 timestamp := ts, metadata := some [] }
        | some Json.null =>
          some { id := i, role := r, content := c, message_type := mtype,
                 timestamp := ts, metadata := none }
        | some (Json.obj d) =>
          some { id := i, role := r, content := c, message_type := mtype,
                 timestamp := ts, metadata := some d }
        | some _ => none
    | _, _, _, _, _ => none
  | _ => none

/-- Reconstruction `ConversationSummary(**data['summary'])` of `load_context`: the
keyword expansion requires exactly the six dataclass fields, no more and no fewer. -/
def parseSummary (j : Json) : Option ConversationSummary :=
  match j with
  | Json.obj fields =>
    if fields.length = 6 then
      match jLookup fields "key_points", jLookup fields "mentioned_needs",
          jLookup fields "objections_raised", jLookup fields "interests_shown",
          jLookup fields "next_actions", jLookup fields "last_updated" with
      | some (Json.arr kp), some (Json.arr mn), some (Json.arr ob),
          some (Json.arr ish), some (Json.arr na), some (Json.num lu) =>
        match mapOption jsonToStr kp, mapOption jsonToStr mn, mapOption jsonToStr ob,
            mapOption jsonToStr ish, mapOption jsonToStr na with
        | some kp', some mn', some ob', some ish', some na' =>
          some { key_points := kp', mentioned_needs := mn', objections_raised := ob',
                 interests_shown := ish', next_actions := na', last_updated := lu }
        | _, _, _, _, _ => none
      | _, _, _, _, _, _ => none
    else none
  | _ => none

/-- Reconstruction of a full context from a file snapshot, as `load_context` performs
it: `messages`, `summary`, `session_id`, `lead_id`, `start_time`, `last_activity`,
`current_phase`, `lead_info` and `total_interactions` are all required, and any
failure while rebuilding aborts the whole load. -/
def parseContext (j : Json) : Option ConversationContext :=
  match j with
  | Json.obj fields =>
    match jLookup fields "messages" with
    | some (Json.arr msgJs) =>
      match mapOption parseMessage msgJs with
      | none => none
      | some messages =>
        match jLookup fields "summary" with
        | none => none
        | some sj =>
          match parseSummary sj with
          | none => none
          | some summary =>
            match jLookup fields "session_id", jLookup fields "lead_id",
                jLookup fields "start_time", jLookup fields "last_activity",
                jLookup fields "current_phase", jLookup fields "lead_info",
                jLookup fields "total_interactions" with
            | some (Json.str sid), some (Json.str lid), some (Json.num st),
                some (Json.num la), some (Json.str ph), some (Json.obj li),
                some (Json.num ti) =>
              match phaseOfString ph with
              | none => none
              | some phase =>
                some { session_id := sid, lead_id := lid, start_time := st,
                       last_activity := la, current_phase := phase,
                       messages := messages, summary := summary,
                       lead_info := li, total_interactions := ti }
            | _, _, _, _, _, _, _ => none
    | _ => none
  | _ => none

/-- Source `ContextManager.save_context`: the JSON document written to the file, or
`none` when there is no active context (the source then returns `False`). -/
def save_context (mgr : ContextManager) : Option Json :=
  mgr.current_context.map ConversationContext.to_dict

/-- Source `ContextManager.load_context`, with the file contents presented as the
decoded JSON value: on success the active context is replaced and `True` returned; on
any exception the state is untouched and `False` returned. -/
def load_context (mgr : ContextManager) (fileData : Json) : ContextManager × Bool :=
  match parseContext fileData with
  | some ctx => ({ mgr with current_context := some ctx }, true)
  | none => (mgr, false)

/-- Reconstruction of a summary by `load_conversation_from_db`, where every field is
read with a default (`[]`, or the current time for `last_updated`). -/
def parseDbSummary (j : Option Json) (now : Int) : Option ConversationSummary :=
  let fields := match j with
    | some (Json.obj fs) => some fs
    | none => some []
    | _ => none
  match fields with
  | none => none
  | some fs =>
    let getList (k : String) : Option (List String) :=
      match jLookup fs k with
      | none => some []
      | some (Json.arr l) => mapOption jsonToStr l
      | _ => none
    match getList "key_points", getList "mentioned_needs", getList "objections_raised",
        getList "interests_shown", getList "next_actions" with
    | some kp, some mn, some ob, some ish, some na =>
      let lu := match jLookup fs "last_updated" with
        | none => some now
        | some (Json.num n) => some n
        | _ => none
      match lu with
      | none => none
      | some lu' =>
        some { key_points := kp, mentioned_needs := mn, objections_raised := ob,
               interests_shown := ish, next_actions := na, last_updated := lu' }
    | _, _, _, _, _ => none

/-- Reconstruction of a full context by `load_conversation_from_db`: `messages`
defaults to `[]`, `summary` to an empty dict, `lead_info` to `{}` and
`total_interactions` to `0`; `session_id`, `lead_id`, `start_time`, `last_activity`
and `current_phase` are required. -/
def parseDbContext (j : Json) (now : Int) : Option ConversationContext :=
  match j with
  | Json.obj fields =>
    let msgJs := match jLookup fields "messages" with
      | none => some []
      | some (Json.arr l) => some l
      | _ => none
    match msgJs with
    | none => none
    | some msgJs' =>
      match mapOption parseMessage msgJs' with
      | none => none
      | some messages =>
        match parseDbSummary (jLookup fields "summary") now with
        | none => none
        | some summary =>
          match jLookup fields "session_id", jLookup fields "lead_id",
              jLookup fields "start_time", jLookup fields "last_activity",
              jLookup fields "current_phase" with
          | some (Json.str sid), some (Json.str lid), some (Json.num st),
              some (Json.num la), some (Json.str ph) =>
            match phaseOfString ph with
            | none => none
            | some phase =>
              let li := match jLookup fields "lead_info" with
                | none => some []
                | some (Json.obj l) => some l
                | _ => none
              let ti := match jLookup fields "total_interactions" with
                | none => some (0 : Int)
                | some (Json.num n) => some n
                | _ => none
              match li, ti with
              | some li', some ti' =>
                some { session_id := sid, lead_id := lid, start_time := st,
                       last_activity := la, current_phase := phase,
                       messages := messages, summary := summary,
                       lead_info := li', total_interactions := ti' }
              | _, _ => none
          | _, _, _, _, _ => none
  | _ => none

/-- Source `ContextManager.load_conversation_from_db`, with the stored record's
decoded `conversation_data` presented as an optional JSON value (`none` when
`get_conversation` found nothing). Without a db client it returns `False`; on any
exception while rebuilding, the state is untouched and `False` returned. -/
def load_conversation_from_db (mgr : ContextManager) (record : Option Json)
    (now : Int) : ContextManager × Bool :=
  if mgr.has_db_client then
    match record with
    | none => (mgr, false)
    | some jdata =>
      match parseDbContext jdata now with
      | some ctx => ({ mgr with current_context := some ctx }, true)
      | none => (mgr, false)
  else (mgr, false)

/-- Modelled from the claim wording of C4 (spec side, for comparison with the code):
the lowercase concatenation of the contents of up to the last 6 user-role turns of
the conversation, i.e. the 6 most recent messages whose role is user no matter how
many other turns are interleaved among them. -/
def spec_recent_user_text (ctx : ConversationContext) : String :=
  joinSpace ((lastN 6 (ctx.messages.filter (fun m => m.role == "user"))).map
    (fun m => lower m.content))

/-- The phase selected from a given text by the scoring pass of
`analyze_conversation_phase` (the empty case mirrors its unreachable guard). -/
def phaseFromText (text : String) : ConversationPhase :=
  match phase_scores_list text with
  | [] => ConversationPhase.introduction
  | x :: xs => (pyFold xs x).1

/-- Extraction of the active message list of a manager (empty when no context is
active); used to phrase concrete statements. -/
def msgsOf (mgr : ContextManager) : List ConversationMessage :=
  match mgr.current_context with
  | some ctx => ctx.messages
  | none => []

/-- Test fixture: a plain user/assistant message as `add_message` would build it. -/
def sampleMsg (i : Nat) (r c : String) : ConversationMessage :=
  { id := idRender i 0, role := r, content := c, message_type := .user_text,
    timestamp := 0, metadata := some [] }

/-- Test fixture: a context with a given message list and phase, otherwise fresh. -/
def sampleCtx (msgs : List ConversationMessage) (ph : ConversationPhase) :
    ConversationContext :=
  { session_id := "s", lead_id := "l", start_time := 0, last_activity := 0,
    current_phase := ph, messages := msgs,
    summary := ⟨[], [], [], [], [], 0⟩, lead_info := [], total_interactions := 0 }

/-- Test fixture: a manager owning a given context, default window size 20. -/
def sampleMgr (c : ConversationContext) : ContextManager := ⟨20, some c, [], false⟩

/-- Test fixture: a manager with no active context. -/
def mgrNoCtx : ContextManager := ⟨20, none, [], true⟩

/-- Test fixture: a gateway that knows no leads and fails to create them. -/
def dbEmpty : DbGateway := ⟨fun _ => none, fun _ => none⟩

/-- Test fixture: a manager that just started a fresh conversation (window size 20,
no db client). -/
def mgrStart : ContextManager :=
  (start_new_conversation ⟨20, none, [], false⟩ none 0 "u").1

/-- Test fixture: a user `add_message` call at a given clock tick. -/
def userCall (t : Int) : AddCall :=
  ⟨"user", "m", .user_text, none, t, "u"⟩

/-- Test fixture for C1: 42 user calls at increasing ticks. -/
def c1calls : List AddCall := (List.range 42).map (fun i => userCall i)

/-- Test fixture for C9: 42 user calls all within one clock tick. -/
def c9calls : List AddCall := (List.range 42).map (fun _ => userCall 5)

/-- Test fixture for C2: a context in phase `discovery` whose two user messages
match no keyword. -/
def c2ctx : ConversationContext :=
  sampleCtx [sampleMsg 0 "user" "xyz", sampleMsg 1 "user" "xyz"] .discovery

/-- Test fixture for C3, scenario start: empty manager. -/
def c3m0 : ContextManager := ⟨20, none, [], false⟩

/-- Scenario step: conversation started. -/
def c3m1 : ContextManager := (start_new_conversation c3m0 none 0 "u").1

/-- Scenario step: first user turn added. -/
def c3m2 : ContextManager :=
  (add_message c3m1 ⟨"user", "Hola, me llamo Ana y soy de Acme", .user_text, none, 1, "u"⟩).1

/-- Scenario step: first phase analysis. -/
def c3a1 : ContextManager × ConversationPhase := analyze_conversation_phase c3m2

/-- Scenario step: second user turn added. -/
def c3m3 : ContextManager :=
  (add_message c3a1.1 ⟨"user", "necesitamos ayuda con presupuesto", .user_text, none, 2, "u"⟩).1

/-- Scenario step: second phase analysis. -/
def c3a2 : ContextManager × ConversationPhase := analyze_conversation_phase c3m3

/-- The recent user text at the second analysis of the C3 scenario. -/
def c3text : String :=
  match c3m3.current_context with
  | some c => recent_user_text c
  | none => ""

/-- Test fixture for C4: one user turn, five assistant turns, one user turn — the
last 6 turns of any role contain only one of the two user turns. -/
def c4ctx : ConversationContext :=
  sampleCtx
    ([sampleMsg 0 "user" "necesito"] ++
      (List.range 5).map (fun i => sampleMsg (i + 1) "assistant" "x") ++
      [sampleMsg 6 "user" "presupuesto"]) .introduction

/-- Test fixture for C5: a single-message context (below the 2-message threshold). -/
def c5ctx1 : ConversationContext :=
  sampleCtx [sampleMsg 0 "user" "necesito ayuda"] .introduction

/-- Test fixture for C5: same relevant user turns as `c5ctx1`, but 2 messages. -/
def c5ctx2 : ConversationContext :=
  sampleCtx [sampleMsg 0 "assistant" "ok", sampleMsg 1 "user" "necesito ayuda"] .introduction

/-- Test fixture for C8: a message object with no `metadata` key. -/
def c8msg : List (String × Json) :=
  [("id", Json.str "msg_0_1"),
   ("role", Json.str "user"),
   ("content", Json.str "hola"),
   ("message_type", Json.str "user_text"),
   ("timestamp", Json.num 1)]

/-- Test fixture for C8: an otherwise complete file snapshot whose only message lacks
the `metadata` field. -/
def c8snap : Json :=
  Json.obj
    [("session_id", Json.str "s"),
     ("lead_id", Json.str "l"),
     ("start_time", Json.num 0),
     ("last_activity", Json.num 0),
     ("current_phase", Json.str "closing"),
     ("messages", Json.arr [Json.obj c8msg]),
     ("summary", Json.obj
       [("key_points", Json.arr []),
        ("mentioned_needs", Json.arr []),
        ("objections_raised", Json.arr []),
        ("interests_shown", Json.arr []),
        ("next_actions", Json.arr []),
        ("last_updated", Json.num 0)]),
     ("lead_info", Json.obj []),
     ("total_interactions", Json.num 0)]

/-- The context that `load_context` builds from `c8snap` (metadata defaulted to `{}`). -/
def c8parsed : ConversationContext :=
  { session_id := "s", lead_id := "l", start_time := 0, last_activity := 0,
    current_phase := .closing,
    messages := [{ id := "msg_0_1", role := "user", content := "hola",
                   message_type := .user_text, timestamp := 1, metadata := some [] }],
    summary := ⟨[], [], [], [], [], 0⟩, lead_info := [], total_interactions := 0 }

/-- Test fixture for C6: one message of each of the five kinds. -/
def c6m1 : ConversationMessage :=
  { id := "msg_0_10", role := "user", content := "hola", message_type := .user_text,
    timestamp := 10, metadata := some [] }

/-- Test fixture for C6 (audio kind, metadata `None`). -/
def c6m2 : ConversationMessage :=
  { id := "msg_1_11", role := "user", content := "audio", message_type := .user_audio,
    timestamp := 11, metadata := none }

/-- Test fixture for C6 (agent response with metadata). -/
def c6m3 : ConversationMessage :=
  { id := "msg_2_12", role := "assistant", content := "buenas",
    message_type := .agent_response, timestamp := 12,
    metadata := some [("confidence", Json.num 9)] }

/-- Test fixture for C6 (system info). -/
def c6m4 : ConversationMessage :=
  { id := "msg_3_13", role := "system", content := "info", message_type := .system_info,
    timestamp := 13, metadata := some [] }

/-- Test fixture for C6 (lead update). -/
def c6m5 : ConversationMessage :=
  { id := "msg_4_14", role := "system", content := "Lead information updated: []",
    message_type := .lead_update, timestamp := 14,
    metadata := some [("updated_fields", Json.arr [])] }

/-- Test fixture for C6: a context holding one message of each of the five kinds,
with nonempty summary lists, metadata and lead info. -/
def c6ctx : ConversationContext :=
  { session_id := "session_1", lead_id := "lead-1", start_time := 10, last_activity := 99,
    current_phase := .qualification,
    messages := [c6m1, c6m2, c6m3, c6m4, c6m5],
    summary := ⟨["kp"], ["necesito un crm"], ["pero el precio"], [], ["llamar"], 77⟩,
    lead_info := [("personal", Json.obj [("nombre", Json.str "Ana")])],
    total_interactions := 5 }

/-- The manager state after an analysis stored a detected phase into the active
context. -/
def storedPhase (mgr : ContextManager) (ctx : ConversationContext)
    (p : ConversationPhase) : ContextManager :=
  { mgr with current_context := some { ctx with current_phase := p } }

/-- Test fixture for the C5 witness: same relevant user turns as `c5ctx2`, different
interleaving, 3 messages. -/
def c5ctx3 : ConversationContext :=
  sampleCtx
    [sampleMsg 0 "assistant" "zz", sampleMsg 1 "assistant" "ok",
     sampleMsg 2 "user" "necesito ayuda"] .closing

/-- Test fixture for the C4 witness: two user turns. -/
def c4w1 : ConversationContext :=
  sampleCtx [sampleMsg 0 "user" "hola", sampleMsg 1 "user" "necesito"] .introduction

/-- Test fixture for the C4 witness: same user turns as `c4w1` inside the 6-turn
window, with an assistant turn interleaved. -/
def c4w2 : ConversationContext :=
  sampleCtx
    [sampleMsg 0 "user" "hola", sampleMsg 1 "assistant" "x",
     sampleMsg 2 "user" "necesito"] .closing

/-- The context produced by the main branch of `update_conversation_summary`. -/
def summarizedCtx (c : ConversationContext) (now : Int) : ConversationContext :=
  { c with summary :=
    { c.summary with
        mentioned_needs :=
          sweepAll (lower (joinSpace (recent_summary_messages c))) need_keywords
            c.summary.mentioned_needs
        objections_raised :=
          sweepAll (lower (joinSpace (recent_summary_messages c))) objection_keywords
            c.summary.objections_raised
        last_updated := now } }

/-- The `mentioned_needs` list of the active context (empty when none). -/
def needsOf (mgr : ContextManager) : List String :=
  match mgr.current_context with
  | some c => c.summary.mentioned_needs
  | none => []

/-- The `objections_raised` list of the active context (empty when none). -/
def objectionsOf (mgr : ContextManager) : List String :=
  match mgr.current_context with
  | some c => c.summary.objections_raised
  | none => []

/-- Test fixture: a fresh empty context. -/
def ctxEmpty : ConversationContext := sampleCtx [] .introduction

/-- Test fixture: a manager with window size 3 on a fresh conversation. -/
def mgrW3 : ContextManager := ⟨3, some ctxEmpty, [], false⟩

/-- Test fixture: 7 user calls at increasing ticks (enough to trigger retention at
window size 3). -/
def c1wcalls : List AddCall := (List.range 7).map (fun i => userCall i)

/-- C10: when no conversation context is active, `update_lead_info` is a complete
no-op — it does not auto-start a conversation, merges nothing, contacts no gateway,
and appends no `lead_update` turn; all manager state is unchanged. -/
theorem C10_update_lead_info_noop (mgr : ContextManager)
    (h : mgr.current_context = none) (new_info : List (String × Json))
    (db : DbGateway) (now : Int) (fresh_uuid : String) :
    update_lead_info mgr new_info db now fresh_uuid = (mgr, []) := by
  unfold update_lead_info
  rw [h]

/-- Witness for C10 at a concrete manager with no active context. -/
theorem C10_update_lead_info_noop_witness :
    update_lead_info mgrNoCtx [("personal", Json.obj [("nombre", Json.str "Ana")])]
      dbEmpty 3 "u" = (mgrNoCtx, []) :=
  C10_update_lead_info_noop mgrNoCtx rfl _ dbEmpty 3 "u"

/-- C8 (counterexample to the claim as stated): a snapshot whose message object is
missing the `metadata` field does not make the load fail — `load_context` succeeds,
returns a success result and replaces the active context, contrary to the claim that
loading a snapshot with missing fields fails and leaves the context as it was. -/
theorem C8_counterexample :
    jLookup c8msg "metadata" = none ∧
    mgrNoCtx.current_context = none ∧
    load_context mgrNoCtx c8snap = ({ mgrNoCtx with current_context := some c8parsed }, true) := by
  exact ⟨rfl, rfl, rfl⟩

/-- C8 (amended): loads are all-or-nothing. Whenever the file deserialization fails,
`load_context` reports failure and leaves the whole manager state exactly unchanged,
and in every case it either does that or fully replaces the active context with the
parsed snapshot; the same holds for `load_conversation_from_db` (whose parse fills
defaults for its optional fields instead of failing). -/
theorem C8_load_all_or_nothing :
    (∀ (mgr : ContextManager) (j : Json),
      parseContext j = none → load_context mgr j = (mgr, false)) ∧
    (∀ (mgr : ContextManager) (j : Json),
      load_context mgr j = (mgr, false) ∨
      ∃ ctx, parseContext j = some ctx ∧
        load_context mgr j = ({ mgr with current_context := some ctx }, true)) ∧
    (∀ (mgr : ContextManager) (rec : Option Json) (now : Int),
      (∀ j, rec = some j → parseDbContext j now = none) →
      load_conversation_from_db mgr rec now = (mgr, false)) ∧
    (∀ (mgr : ContextManager) (rec : Option Json) (now : Int),
      load_conversation_from_db mgr rec now = (mgr, false) ∨
      ∃ j ctx, rec = some j ∧ parseDbContext j now = some ctx ∧
        load_conversation_from_db mgr rec now =
          ({ mgr with current_context := some ctx }, true)) := by
  refine ⟨?_, ?_, ?_, ?_⟩
  · intro mgr j h
    unfold load_context
    rw [h]
  · intro mgr j
    unfold load_context
    cases h : parseContext j with
    | none => exact Or.inl rfl
    | some ctx => exact Or.inr ⟨ctx, rfl, rfl⟩
  · intro mgr rec now h
    unfold load_conversation_from_db
    cases hdb : mgr.has_db_client with
    | false => simp
    | true =>
      cases rec with
      | none => simp
      | some j => simp [h j rfl]
  · intro mgr rec now
    unfold load_conversation_from_db
    cases hdb : mgr.has_db_client with
    | false => exact Or.inl (by simp)
    | true =>
      cases rec with
      | none => exact Or.inl (by simp)
      | some j =>
        cases h : parseDbContext j now with
        | none => exact Or.inl (by simp [h])
        | some ctx => exact Or.inr ⟨j, ctx, rfl, h, by simp [h]⟩

/-- Witness for C8 (amended) at a concrete failing snapshot: `Json.null` does not
parse, so loading it reports failure and leaves the manager unchanged. -/
theorem C8_load_all_or_nothing_witness :
    load_context mgrNoCtx Json.null = (mgrNoCtx, false) :=
  C8_load_all_or_nothing.1 mgrNoCtx Json.null rfl

/-- C1 (counterexample to the claim as stated): with the default window size
`W = 20`, after `N = 42 > 2·W` calls of `add_message` on one conversation the
message list has length 24, not `min(N, 3 + W) = 23` — truncation fires only when
the list exceeds `2·W`, so between truncations the length creeps back up above
`3 + W`. -/
theorem C1_counterexample :
    mgrStart.max_context_messages = 20 ∧
    c1calls.length = 42 ∧
    (msgsOf (runAddsTrace mgrStart c1calls).1).length = 24 ∧
    (24 : Nat) ≠ min 42 (3 + 20) := by
  refine ⟨rfl, by decide, ?_, by decide⟩
  rfl

/-- C2 (counterexample to the claim as stated): on an active context with 2 messages
whose recent user text matches no keyword — every phase scores 0 — the analysis does
not leave `current_phase` unchanged: the context is in phase `discovery`, yet
`analyze_conversation_phase` returns `introduction` and stores it (Python's
`max` over the always nonempty all-zero score dict falls back to the first phase). -/
theorem C2_counterexample :
    c2ctx.current_phase = ConversationPhase.discovery ∧
    2 ≤ c2ctx.messages.length ∧
    (∀ p : ConversationPhase, phaseScore (recent_user_text c2ctx) p = 0) ∧
    analyze_conversation_phase (sampleMgr c2ctx) =
      (sampleMgr { c2ctx with current_phase := ConversationPhase.introduction },
       ConversationPhase.introduction) ∧
    ConversationPhase.introduction ≠ ConversationPhase.discovery := by
  refine ⟨rfl, by decide, ?_, ?_, by decide⟩
  · intro p
    cases p <;> decide
  · rfl

/-- C3 (counterexample to the claim as stated): in the scenario, the parts of the
claim up to the scores are right — the first analysis returns `introduction`, and at
the second analysis `discovery` and `qualification` score 1 each — but the second
analysis does not select `discovery`: the 6-turn window still contains the first
user turn, so `introduction` scores 3 and wins outright. -/
theorem C3_counterexample :
    c3a1.2 = ConversationPhase.introduction ∧
    phaseScore c3text ConversationPhase.discovery = 1 ∧
    phaseScore c3text ConversationPhase.qualification = 1 ∧
    c3a2.2 ≠ ConversationPhase.discovery := by
  exact ⟨rfl, by decide, by decide, by decide⟩

/-- C3 (amended): after `start_new_conversation`, adding the user turn
"Hola, me llamo Ana y soy de Acme" and calling `analyze_conversation_phase` returns
`introduction`; after adding the user turn "necesitamos ayuda con presupuesto" the
re-run scores `discovery` and `qualification` at 1 each but `introduction` at 3
("hola", "me llamo" and "soy" all match), so the analysis returns — and stores —
`introduction` rather than tie-breaking between `discovery` and `qualification`. -/
theorem C3_scenario_amended :
    c3a1.2 = ConversationPhase.introduction ∧
    phaseScore c3text ConversationPhase.introduction = 3 ∧
    phaseScore c3text ConversationPhase.discovery = 1 ∧
    phaseScore c3text ConversationPhase.qualification = 1 ∧
    c3a2.2 = ConversationPhase.introduction ∧
    (c3a2.1.current_context.map (fun c => c.current_phase)) =
      some ConversationPhase.introduction := by
  exact ⟨rfl, by decide, by decide, by decide, rfl, rfl⟩

/-- C4 (counterexample to the claim as stated): the text scored by
`analyze_conversation_phase` is not built from the 6 most recent user-role messages.
On a conversation of user("necesito"), five assistant turns, user("presupuesto"),
the code's window `messages[-6:]` retains only one of the two user turns, the scored
text differs from the claimed one, and the analysis returns `qualification` while
scoring the claimed text would select `discovery`. -/
theorem C4_counterexample :
    recent_user_text c4ctx ≠ spec_recent_user_text c4ctx ∧
    2 ≤ c4ctx.messages.length ∧
    (analyze_conversation_phase (sampleMgr c4ctx)).2 = ConversationPhase.qualification ∧
    phaseFromText (spec_recent_user_text c4ctx) = ConversationPhase.discovery ∧
    ConversationPhase.qualification ≠ ConversationPhase.discovery := by
  exact ⟨by decide, by decide, rfl, by decide, by decide⟩

/-- C5 (counterexample to the claim as stated): two contexts with identical relevant
recent user turns — the user-role turns among the last 6 messages are a single turn
"necesito ayuda" in both — on which `analyze_conversation_phase` returns different
phases, because one context is below the 2-message threshold and takes the early
`introduction` return while the other is scored. -/
theorem C5_counterexample :
    ((lastN 6 c5ctx1.messages).filter (fun m => m.role == "user")).map
        (fun m => m.content) =
      ((lastN 6 c5ctx2.messages).filter (fun m => m.role == "user")).map
        (fun m => m.content) ∧
    recent_user_text c5ctx1 = recent_user_text c5ctx2 ∧
    (analyze_conversation_phase (sampleMgr c5ctx1)).2 = ConversationPhase.introduction ∧
    (analyze_conversation_phase (sampleMgr c5ctx2)).2 = ConversationPhase.discovery ∧
    ConversationPhase.introduction ≠ ConversationPhase.discovery := by
  exact ⟨by decide, by decide, rfl, rfl, by decide⟩

/-- C9 (counterexample to the claim as stated): a sequence of 42 `add_message` calls
whose wall-clock milliseconds never advance (a legal non-decreasing clock) drives the
retention policy to reset the length-based id index, and the final message list
contains the id `msg_23_5` twice — turn ids are not unique for every call sequence. -/
theorem C9_counterexample :
    c9calls.length = 42 ∧
    List.Pairwise (· ≤ ·) (c9calls.map (fun c => c.now)) ∧
    ¬ ((msgsOf (runAddsTrace mgrStart c9calls).1).map (fun m => m.id)).Nodup := by
  refine ⟨by decide, by decide, ?_⟩
  decide

/-- Parsing a serialized message recovers it exactly. -/
theorem parseMessage_to_dict (m : ConversationMessage) :
    parseMessage m.to_dict = some m := by
  obtain ⟨i, r, c, mt, ts, md⟩ := m
  cases mt <;> cases md <;> rfl

/-- Parsing a serialized message list recovers it exactly. -/
theorem mapOption_parseMessage_to_dict (msgs : List ConversationMessage) :
    mapOption parseMessage (msgs.map ConversationMessage.to_dict) = some msgs := by
  induction msgs with
  | nil => rfl
  | cons m rest ih =>
    simp [mapOption, parseMessage_to_dict, ih]

/-- Parsing a serialized string list recovers it exactly. -/
theorem mapOption_str_roundtrip (l : List String) :
    mapOption jsonToStr (l.map Json.str) = some l := by
  induction l with
  | nil => rfl
  | cons s rest ih => simp [mapOption, jsonToStr, ih]

/-- Parsing a serialized summary recovers it exactly. -/
theorem parseSummary_to_dict (s : ConversationSummary) :
    parseSummary (summaryToDict s) = some s := by
  obtain ⟨kp, mn, ob, ish, na, lu⟩ := s
  show parseSummary (Json.obj _) = _
  unfold parseSummary
  simp [summaryToDict, jLookup, mapOption_str_roundtrip]

/-- Parsing a serialized context recovers it exactly. -/
theorem parseContext_to_dict (ctx : ConversationContext) :
    parseContext ctx.to_dict = some ctx := by
  obtain ⟨sid, lid, st, la, ph, msgs, summ, li, ti⟩ := ctx
  cases ph <;>
    simp [parseContext, ConversationContext.to_dict, jLookup,
      mapOption_parseMessage_to_dict, parseSummary_to_dict, phaseOfString, phaseValue]

/-- C6: file-snapshot round trip. For every active context containing at least one
message of each kind, `save_context` writes the `to_dict` snapshot and `load_context`
on that snapshot reconstructs a context deep-equal to the original in every field,
on any manager it is invoked on. -/
theorem C6_round_trip (mgr : ContextManager) (ctx : ConversationContext)
    (h : mgr.current_context = some ctx)
    (hkinds : ∀ k : MessageType, ∃ m, m ∈ ctx.messages ∧ m.message_type = k) :
    save_context mgr = some ctx.to_dict ∧
    ∀ mgr2 : ContextManager,
      load_context mgr2 ctx.to_dict = ({ mgr2 with current_context := some ctx }, true) := by
  constructor
  · simp [save_context, h]
  · intro mgr2
    unfold load_context
    rw [parseContext_to_dict]

/-- Witness for C6 at a concrete context holding all five message kinds. -/
theorem C6_round_trip_witness :
    save_context (sampleMgr c6ctx) = some c6ctx.to_dict ∧
    load_context mgrNoCtx c6ctx.to_dict =
      ({ mgrNoCtx with current_context := some c6ctx }, true) := by
  have h := C6_round_trip (sampleMgr c6ctx) c6ctx rfl ?hk
  · exact ⟨h.1, h.2 mgrNoCtx⟩
  case hk =>
    intro k
    cases k with
    | user_text => exact ⟨c6m1, by simp [c6ctx], rfl⟩
    | user_audio => exact ⟨c6m2, by simp [c6ctx], rfl⟩
    | agent_response => exact ⟨c6m3, by simp [c6ctx], rfl⟩
    | system_info => exact ⟨c6m4, by simp [c6ctx], rfl⟩
    | lead_update => exact ⟨c6m5, by simp [c6ctx], rfl⟩

/-- The phase sitting at a given position of the enumeration order. -/
def phaseOfIdx : Nat → ConversationPhase
  | 0 => .introduction
  | 1 => .discovery
  | 2 => .qualification
  | 3 => .presentation
  | 4 => .objection_handling
  | 5 => .closing
  | _ => .follow_up

/-- Characterization of Python's `max(..., key=lambda x: x[1])` over a seven-entry
list: it returns an entry whose score dominates all seven, and every entry strictly
earlier in the list has a strictly smaller score (ties go to the earliest). -/
theorem pyFold7_spec (a : Nat → α) (s : Nat → Nat) :
    ∃ k, pyFold [(a 1, s 1), (a 2, s 2), (a 3, s 3), (a 4, s 4), (a 5, s 5), (a 6, s 6)]
        (a 0, s 0) = (a k, s k) ∧
      k < 7 ∧
      (s 0 ≤ s k ∧ s 1 ≤ s k ∧ s 2 ≤ s k ∧ s 3 ≤ s k ∧ s 4 ≤ s k ∧ s 5 ≤ s k ∧ s 6 ≤ s k) ∧
      ((0 < k → s 0 < s k) ∧ (1 < k → s 1 < s k) ∧ (2 < k → s 2 < s k) ∧
       (3 < k → s 3 < s k) ∧ (4 < k → s 4 < s k) ∧ (5 < k → s 5 < s k) ∧
       (6 < k → s 6 < s k)) := by
  simp only [pyFold, List.foldl]
  split_ifs <;>
    exact ⟨_, rfl, by omega, by omega, by omega⟩

/-- The phase selected from a text dominates every phase's score, and every phase
strictly earlier in enumeration order scores strictly less (the tie-break of the
source's `max`). -/
theorem phaseFromText_spec (t : String) :
    (∀ q, phaseScore t q ≤ phaseScore t (phaseFromText t)) ∧
    (∀ q, phaseIdx q < phaseIdx (phaseFromText t) →
      phaseScore t q < phaseScore t (phaseFromText t)) := by
  obtain ⟨k, heq, hk7, hle, hlt⟩ :=
    pyFold7_spec phaseOfIdx (fun j => phaseScore t (phaseOfIdx j))
  have hft : phaseFromText t = phaseOfIdx k := congrArg Prod.fst heq
  rw [hft]
  constructor
  · intro q
    interval_cases k <;> simp only [phaseOfIdx] at hle ⊢ <;> cases q <;> omega
  · intro q hq
    interval_cases k <;> cases q <;>
      simp only [phaseIdx, phaseOfIdx] at hq hlt ⊢ <;> omega

/-- On an active context with at least 2 messages, `analyze_conversation_phase`
computes exactly the phase selected from the recent user text, stores it and returns
it. -/
theorem analyze_eq_phaseFromText (mgr : ContextManager) (ctx : ConversationContext)
    (h : mgr.current_context = some ctx) (h2 : 2 ≤ ctx.messages.length) :
    analyze_conversation_phase mgr =
      (storedPhase mgr ctx (phaseFromText (recent_user_text ctx)),
       phaseFromText (recent_user_text ctx)) := by
  have h2' : ¬ ctx.messages.length < 2 := by omega
  unfold analyze_conversation_phase
  rw [h]
  simp only [if_neg h2']
  rfl

/-- C2 (amended): for every active context with at least 2 messages, if every
phase's keyword score over the recent user text is 0, `analyze_conversation_phase`
does not leave the current phase unchanged in general — it returns `introduction`
and stores it (Python's `max` over the always nonempty score dict falls back to the
first phase in enumeration order), so the phase is preserved only when it already
was `introduction`. -/
theorem C2_all_zero_resets_to_introduction (mgr : ContextManager)
    (ctx : ConversationContext) (h : mgr.current_context = some ctx)
    (h2 : 2 ≤ ctx.messages.length)
    (hz : ∀ p, phaseScore (recent_user_text ctx) p = 0) :
    analyze_conversation_phase mgr =
      (storedPhase mgr ctx ConversationPhase.introduction,
       ConversationPhase.introduction) := by
  have hb := analyze_eq_phaseFromText mgr ctx h h2
  have hintro : phaseFromText (recent_user_text ctx) = ConversationPhase.introduction := by
    have hlt := (phaseFromText_spec (recent_user_text ctx)).2 ConversationPhase.introduction
    cases hres : phaseFromText (recent_user_text ctx) with
    | introduction => rfl
    | discovery =>
      rw [hres] at hlt
      have := hlt (by decide)
      simp [hz] at this
    | qualification =>
      rw [hres] at hlt
      have := hlt (by decide)
      simp [hz] at this
    | presentation =>
      rw [hres] at hlt
      have := hlt (by decide)
      simp [hz] at this
    | objection_handling =>
      rw [hres] at hlt
      have := hlt (by decide)
      simp [hz] at this
    | closing =>
      rw [hres] at hlt
      have := hlt (by decide)
      simp [hz] at this
    | follow_up =>
      rw [hres] at hlt
      have := hlt (by decide)
      simp [hz] at this
  rw [hb, hintro]

/-- Witness for C2 (amended) at the concrete all-zero-score context `c2ctx`. -/
theorem C2_all_zero_resets_to_introduction_witness :
    analyze_conversation_phase (sampleMgr c2ctx) =
      (storedPhase (sampleMgr c2ctx) c2ctx ConversationPhase.introduction,
       ConversationPhase.introduction) :=
  C2_all_zero_resets_to_introduction (sampleMgr c2ctx) c2ctx rfl (by decide)
    (by intro p; cases p <;> decide)

/-- C5 (amended): phase determinism holds once both contexts have at least 2
messages. For any two active contexts with at least 2 messages whose relevant recent
user text (the user-role turns among the last 6 messages) coincides,
`analyze_conversation_phase` returns the same phase; and on every such context the
returned phase attains the maximal keyword score, every phase strictly earlier in
the enumeration order `introduction < discovery < qualification < presentation <
objection_handling < closing < follow_up` scoring strictly less (ties break to the
earliest). -/
theorem C5_determinism_and_tie_break :
    (∀ (mgr1 mgr2 : ContextManager) (ctx1 ctx2 : ConversationContext),
      mgr1.current_context = some ctx1 → mgr2.current_context = some ctx2 →
      2 ≤ ctx1.messages.length → 2 ≤ ctx2.messages.length →
      recent_user_text ctx1 = recent_user_text ctx2 →
      (analyze_conversation_phase mgr1).2 = (analyze_conversation_phase mgr2).2) ∧
    (∀ (mgr : ContextManager) (ctx : ConversationContext),
      mgr.current_context = some ctx → 2 ≤ ctx.messages.length →
      (∀ q, phaseScore (recent_user_text ctx) q ≤
        phaseScore (recent_user_text ctx) ((analyze_conversation_phase mgr).2)) ∧
      (∀ q, phaseIdx q < phaseIdx ((analyze_conversation_phase mgr).2) →
        phaseScore (recent_user_text ctx) q <
          phaseScore (recent_user_text ctx) ((analyze_conversation_phase mgr).2))) := by
  constructor
  · intro mgr1 mgr2 ctx1 ctx2 h1 h2 hl1 hl2 htext
    simp only [analyze_eq_phaseFromText mgr1 ctx1 h1 hl1,
      analyze_eq_phaseFromText mgr2 ctx2 h2 hl2, htext]
  · intro mgr ctx h hl
    simp only [analyze_eq_phaseFromText mgr ctx h hl]
    exact phaseFromText_spec (recent_user_text ctx)

/-- Witness for C5 (amended): two concrete contexts with the same relevant user text
get the same phase, and on one of them the returned phase dominates all scores. -/
theorem C5_determinism_and_tie_break_witness :
    (analyze_conversation_phase (sampleMgr c5ctx2)).2 =
      (analyze_conversation_phase (sampleMgr c5ctx3)).2 ∧
    ∀ q, phaseScore (recent_user_text c5ctx2) q ≤
      phaseScore (recent_user_text c5ctx2) ((analyze_conversation_phase (sampleMgr c5ctx2)).2) :=
  ⟨C5_determinism_and_tie_break.1 (sampleMgr c5ctx2) (sampleMgr c5ctx3) c5ctx2 c5ctx3
      rfl rfl (by decide) (by decide) (by decide),
   (C5_determinism_and_tie_break.2 (sampleMgr c5ctx2) c5ctx2 rfl (by decide)).1⟩

/-- C4 (amended): the text scored by `analyze_conversation_phase` is the lowercase
concatenation of the contents of the user-role turns among the last 6 turns of any
role; in particular the returned phase depends only on the sequence of user-role
contents inside that 6-turn window. -/
theorem C4_scored_window (mgr1 mgr2 : ContextManager)
    (ctx1 ctx2 : ConversationContext)
    (h1 : mgr1.current_context = some ctx1) (h2 : mgr2.current_context = some ctx2)
    (hl1 : 2 ≤ ctx1.messages.length) (hl2 : 2 ≤ ctx2.messages.length)
    (hwin : ((lastN 6 ctx1.messages).filter (fun m => m.role == "user")).map
        (fun m => m.content) =
      ((lastN 6 ctx2.messages).filter (fun m => m.role == "user")).map
        (fun m => m.content)) :
    (analyze_conversation_phase mgr1).2 = (analyze_conversation_phase mgr2).2 := by
  have htext : recent_user_text ctx1 = recent_user_text ctx2 := by
    unfold recent_user_text
    have hmap : ∀ (l : List ConversationMessage),
        l.map (fun m => lower m.content) = (l.map (fun m => m.content)).map lower := by
      intro l
      rw [List.map_map]
      rfl
    rw [hmap, hmap, hwin]
  simp only [analyze_eq_phaseFromText mgr1 ctx1 h1 hl1,
    analyze_eq_phaseFromText mgr2 ctx2 h2 hl2, htext]

/-- Witness for C4 (amended): interleaving an assistant turn does not change the
scored window's user contents, so the returned phase agrees. -/
theorem C4_scored_window_witness :
    (analyze_conversation_phase (sampleMgr c4w1)).2 =
      (analyze_conversation_phase (sampleMgr c4w2)).2 :=
  C4_scored_window (sampleMgr c4w1) (sampleMgr c4w2) c4w1 c4w2 rfl rfl
    (by decide) (by decide) (by decide)

/-- One step of the sentence sweep, as an unfolding equation. -/
theorem sweepKeyword_cons (s : String) (rest : List String) (kw : String)
    (acc : List String) :
    sweepKeyword (s :: rest) kw acc =
      sweepKeyword rest kw
        (if strContains s kw ∧ pyStrip s ∉ acc then acc ++ [pyStrip s] else acc) := rfl

/-- The sentence sweep never removes an accumulated fragment. -/
theorem sweepKeyword_mem_mono (sentences : List String) (kw : String)
    (acc : List String) (x : String) (hx : x ∈ acc) :
    x ∈ sweepKeyword sentences kw acc := by
  induction sentences generalizing acc with
  | nil => exact hx
  | cons s rest ih =>
    rw [sweepKeyword_cons]
    apply ih
    split_ifs with hc
    · exact List.mem_append_left _ hx
    · exact hx

/-- After a sweep for one keyword, every stripped sentence containing the keyword is
in the accumulated list. -/
theorem sweepKeyword_adds (sentences : List String) (kw : String) (acc : List String)
    (s : String) (hs : s ∈ sentences) (hc : strContains s kw = true) :
    pyStrip s ∈ sweepKeyword sentences kw acc := by
  revert hs
  induction sentences generalizing acc with
  | nil => intro hs; cases hs
  | cons s0 rest ih =>
    intro hs
    rw [sweepKeyword_cons]
    rcases List.mem_cons.mp hs with heq | hmem
    · subst heq
      apply sweepKeyword_mem_mono
      split_ifs with hcc
      · exact List.mem_append_right _ (List.mem_singleton.mpr rfl)
      · by_contra hnin
        exact hcc ⟨hc, hnin⟩
    · exact ih _ hmem

/-- A sweep whose candidates are all already accumulated is the identity. -/
theorem sweepKeyword_id (sentences : List String) (kw : String) (acc : List String)
    (hall : ∀ s ∈ sentences, strContains s kw = true → pyStrip s ∈ acc) :
    sweepKeyword sentences kw acc = acc := by
  revert hall
  induction sentences generalizing acc with
  | nil => intro hall; rfl
  | cons s0 rest ih =>
    intro hall
    rw [sweepKeyword_cons]
    have hcond : ¬ (strContains s0 kw ∧ pyStrip s0 ∉ acc) := by
      rintro ⟨hc, hn⟩
      exact hn (hall s0 (List.mem_cons_self _ _) hc)
    rw [if_neg hcond]
    exact ih acc (fun s hsm hsc => hall s (List.mem_cons_of_mem _ hsm) hsc)

/-- The sentence sweep preserves freedom from duplicates. -/
theorem sweepKeyword_nodup (sentences : List String) (kw : String) (acc : List String)
    (h : acc.Nodup) : (sweepKeyword sentences kw acc).Nodup := by
  induction sentences generalizing acc with
  | nil => exact h
  | cons s rest ih =>
    rw [sweepKeyword_cons]
    apply ih
    split_ifs with hc
    · rw [List.nodup_append]
      refine ⟨h, List.nodup_singleton _, ?_⟩
      intro a ha hb
      rw [List.mem_singleton] at hb
      subst hb
      exact hc.2 ha
    · exact h

/-- One step of the keyword loop, as an unfolding equation. -/
theorem sweepAll_cons (text : String) (kw : String) (rest : List String)
    (acc : List String) :
    sweepAll text (kw :: rest) acc =
      sweepAll text rest
        (if strContains text kw then sweepKeyword (splitDot text) kw acc else acc) := rfl

/-- The keyword loop never removes an accumulated fragment. -/
theorem sweepAll_mem_mono (text : String) (kws : List String) (acc : List String)
    (x : String) (hx : x ∈ acc) : x ∈ sweepAll text kws acc := by
  induction kws generalizing acc with
  | nil => exact hx
  | cons kw rest ih =>
    rw [sweepAll_cons]
    apply ih
    split_ifs with hg
    · exact sweepKeyword_mem_mono _ _ _ _ hx
    · exact hx

/-- After the keyword loop, every stripped sentence containing one of the keywords
present in the text is in the accumulated list. -/
theorem sweepAll_adds (text : String) (kws : List String) (acc : List String)
    (kw s : String) (hkw : kw ∈ kws) (ht : strContains text kw = true)
    (hs : s ∈ splitDot text) (hsc : strContains s kw = true) :
    pyStrip s ∈ sweepAll text kws acc := by
  revert hkw
  induction kws generalizing acc with
  | nil => intro hkw; cases hkw
  | cons k rest ih =>
    intro hkw
    rw [sweepAll_cons]
    rcases List.mem_cons.mp hkw with heq | hmem
    · subst heq
      apply sweepAll_mem_mono
      rw [if_pos ht]
      exact sweepKeyword_adds _ _ _ _ hs hsc
    · exact ih _ hmem

/-- A keyword loop whose candidates are all already accumulated is the identity. -/
theorem sweepAll_id (text : String) (kws : List String) (acc : List String)
    (hall : ∀ kw ∈ kws, strContains text kw = true →
      ∀ s ∈ splitDot text, strContains s kw = true → pyStrip s ∈ acc) :
    sweepAll text kws acc = acc := by
  revert hall
  induction kws generalizing acc with
  | nil => intro hall; rfl
  | cons k rest ih =>
    intro hall
    rw [sweepAll_cons]
    by_cases hg : strContains text k = true
    · rw [if_pos hg, sweepKeyword_id _ _ _ (fun s hsm hsc =>
        hall k (List.mem_cons_self _ _) hg s hsm hsc)]
      exact ih acc (fun kw hm htt s hsm hsc =>
        hall kw (List.mem_cons_of_mem _ hm) htt s hsm hsc)
    · rw [if_neg hg]
      exact ih acc (fun kw hm htt s hsm hsc =>
        hall kw (List.mem_cons_of_mem _ hm) htt s hsm hsc)

/-- Running the keyword loop twice in a row changes nothing the second time. -/
theorem sweepAll_idem (text : String) (kws : List String) (acc : List String) :
    sweepAll text kws (sweepAll text kws acc) = sweepAll text kws acc :=
  sweepAll_id _ _ _ (fun kw hkw ht s hs hsc => sweepAll_adds text kws acc kw s hkw ht hs hsc)

/-- The keyword loop preserves freedom from duplicates. -/
theorem sweepAll_nodup (text : String) (kws : List String) (acc : List String)
    (h : acc.Nodup) : (sweepAll text kws acc).Nodup := by
  induction kws generalizing acc with
  | nil => exact h
  | cons kw rest ih =>
    rw [sweepAll_cons]
    apply ih
    split_ifs with hg
    · exact sweepKeyword_nodup _ _ _ h
    · exact h

/-- Unfolding of `update_conversation_summary` on an active context. -/
theorem update_summary_eq (mgr : ContextManager) (ctx : ConversationContext)
    (now : Int) (h : mgr.current_context = some ctx) :
    update_conversation_summary mgr now =
      if ctx.messages.length < 3 then mgr
      else if (recent_summary_messages ctx).isEmpty then mgr
      else { mgr with current_context := some (summarizedCtx ctx now) } := by
  unfold update_conversation_summary
  rw [h]
  rfl

/-- C7: summary idempotence. For every active context, calling
`update_conversation_summary` twice in a row with no messages added in between
leaves `summary.mentioned_needs` and `summary.objections_raised` unchanged after the
second call, and the exact-string de-duplication keeps both lists free of duplicate
fragments (a context whose lists are duplicate-free stays duplicate-free, and fresh
contexts start with empty lists). -/
theorem C7_summary_idempotence (mgr : ContextManager) (ctx : ConversationContext)
    (h : mgr.current_context = some ctx) (t1 t2 : Int) :
    (needsOf (update_conversation_summary (update_conversation_summary mgr t1) t2) =
        needsOf (update_conversation_summary mgr t1) ∧
      objectionsOf (update_conversation_summary (update_conversation_summary mgr t1) t2) =
        objectionsOf (update_conversation_summary mgr t1)) ∧
    (ctx.summary.mentioned_needs.Nodup →
      (needsOf (update_conversation_summary mgr t1)).Nodup) ∧
    (ctx.summary.objections_raised.Nodup →
      (objectionsOf (update_conversation_summary mgr t1)).Nodup) := by
  have hneeds : needsOf mgr = ctx.summary.mentioned_needs := by
    unfold needsOf
    rw [h]
  have hobjs : objectionsOf mgr = ctx.summary.objections_raised := by
    unfold objectionsOf
    rw [h]
  by_cases h3 : ctx.messages.length < 3
  · rw [update_summary_eq mgr ctx t1 h, if_pos h3, update_summary_eq mgr ctx t2 h,
      if_pos h3]
    exact ⟨⟨rfl, rfl⟩, by rw [hneeds]; exact id, by rw [hobjs]; exact id⟩
  · by_cases hre : (recent_summary_messages ctx).isEmpty
    · rw [update_summary_eq mgr ctx t1 h, if_neg h3, if_pos hre,
        update_summary_eq mgr ctx t2 h, if_neg h3, if_pos hre]
      exact ⟨⟨rfl, rfl⟩, by rw [hneeds]; exact id, by rw [hobjs]; exact id⟩
    · rw [update_summary_eq mgr ctx t1 h, if_neg h3, if_neg hre]
      have hstep2 := update_summary_eq
        { mgr with current_context := some (summarizedCtx ctx t1) }
        (summarizedCtx ctx t1) t2 rfl
      rw [hstep2, if_neg (show ¬ (summarizedCtx ctx t1).messages.length < 3 from h3),
        if_neg (show ¬ (recent_summary_messages (summarizedCtx ctx t1)).isEmpty from hre)]
      refine ⟨⟨?_, ?_⟩, ?_, ?_⟩
      · exact sweepAll_idem _ _ _
      · exact sweepAll_idem _ _ _
      · intro hnd
        exact sweepAll_nodup _ _ _ hnd
      · intro hnd
        exact sweepAll_nodup _ _ _ hnd

/-- Witness for C7 at a concrete context: three user turns mentioning a need and an
objection. -/
theorem C7_summary_idempotence_witness :
    needsOf (update_conversation_summary (update_conversation_summary
        (sampleMgr c5ctx3) 8) 9) =
      needsOf (update_conversation_summary (sampleMgr c5ctx3) 8) :=
  (C7_summary_idempotence (sampleMgr c5ctx3) c5ctx3 rfl 8 9).1.1

/-- Incrementing below the modulus increments the remainder. -/
theorem mod_succ_of_lt (k m r : Nat) (h : k % m = r) (hlt : r + 1 < m) :
    (k + 1) % m = r + 1 := by
  have hdm := Nat.div_add_mod k m
  have hk : k + 1 = m * (k / m) + (r + 1) := by omega
  rw [hk, Nat.mul_add_mod]
  exact Nat.mod_eq_of_lt hlt

/-- Incrementing at the top of the modulus wraps the remainder to zero. -/
theorem mod_succ_wrap (k m : Nat) (h : k % m = m - 1) (hm : 1 ≤ m) :
    (k + 1) % m = 0 := by
  have hdm := Nat.div_add_mod k m
  have hk : k + 1 = m * (k / m) + m := by omega
  rw [hk, Nat.mul_add_mod, Nat.mod_self]

/-- On an active context, `add_message` appends the built message, applies the
retention policy, stamps activity and bumps the counter, leaving the window size
unchanged. -/
theorem add_message_spec (mgr : ContextManager) (ctx : ConversationContext)
    (c : AddCall) (h : mgr.current_context = some ctx) :
    (add_message mgr c).1.current_context =
      some { ctx with
              messages :=
                retainMessages mgr.max_context_messages
                  (ctx.messages ++ [builtMessage mgr c])
              last_activity := c.now
              total_interactions := ctx.total_interactions + 1 } ∧
    (add_message mgr c).1.max_context_messages = mgr.max_context_messages := by
  unfold add_message builtMessage
  simp only [h]
  constructor <;> first | rfl | trivial

/-- One step of the traced run, from the right. -/
theorem runAddsTrace_append_one (mgr : ContextManager) (l : List AddCall)
    (c : AddCall) :
    runAddsTrace mgr (l ++ [c]) =
      ((add_message (runAddsTrace mgr l).1 c).1,
       (runAddsTrace mgr l).2 ++ [builtMessage (runAddsTrace mgr l).1 c]) := by
  unfold runAddsTrace
  rw [List.foldl_append]
  rfl

/-- Invariant of a sequence of `add_message` calls on one fresh conversation with
window size `W ≥ 3`: the traced arrival list grows one message per call; while at
most `2·W` calls have been made the stored list is exactly the arrival list, and
afterwards it is the first 3 arrivals followed by a suffix of the arrivals of length
`L = W + ((N − (2·W+1)) mod (W−2))`, with `W ≤ L ≤ 2·W − 3`. -/
theorem runAdds_invariant (mgr : ContextManager) (ctx0 : ConversationContext)
    (W : Nat) (h0 : mgr.current_context = some ctx0) (hemp : ctx0.messages = [])
    (hW : mgr.max_context_messages = W) (hW3 : 3 ≤ W) (calls : List AddCall) :
    ∃ fctx, (runAddsTrace mgr calls).1.current_context = some fctx ∧
      (runAddsTrace mgr calls).1.max_context_messages = W ∧
      (runAddsTrace mgr calls).2.length = calls.length ∧
      ((calls.length ≤ 2 * W ∧ fctx.messages = (runAddsTrace mgr calls).2) ∨
       (2 * W < calls.length ∧ ∃ L, W ≤ L ∧ L + 3 ≤ 2 * W ∧
         L = W + (calls.length - (2 * W + 1)) % (W - 2) ∧
         fctx.messages =
           (runAddsTrace mgr calls).2.take 3 ++
             (runAddsTrace mgr calls).2.drop
               ((runAddsTrace mgr calls).2.length - L))) := by
  induction calls using List.reverseRecOn with
  | nil =>
    exact ⟨ctx0, h0, hW, rfl, Or.inl ⟨by simp, hemp⟩⟩
  | append_singleton l c ih =>
    obtain ⟨fctx, hcur, hmax, hlen, hshape⟩ := ih
    obtain ⟨hadd, haddmax⟩ := add_message_spec (runAddsTrace mgr l).1 fctx c hcur
    rw [runAddsTrace_append_one]
    set arr := (runAddsTrace mgr l).2 with harrdef
    set bm := builtMessage (runAddsTrace mgr l).1 c with hbmdef
    refine ⟨_, hadd, by rw [haddmax, hmax], by simp [hlen], ?_⟩
    have harrlen : (arr ++ [bm]).length = l.length + 1 := by simp [hlen]
    have hlistlen : (l ++ [c]).length = l.length + 1 := by simp
    rcases hshape with ⟨hle, hmsgs⟩ | ⟨hgt, L, hLW, hL2W, hLmod, hmsgs⟩
    · -- the stored list was still the whole arrival list
      by_cases hcase : l.length + 1 ≤ 2 * W
      · left
        refine ⟨by rw [hlistlen]; omega, ?_⟩
        show retainMessages _ _ = _
        rw [hmax, retainMessages, if_neg (by rw [hmsgs]; rw [harrlen]; omega), hmsgs]
      · -- this call crosses the threshold: first truncation
        right
        have hl2w : l.length = 2 * W := by omega
        refine ⟨by rw [hlistlen]; omega, W, le_refl W, by omega, ?_, ?_⟩
        · rw [hlistlen, hl2w, Nat.sub_self, Nat.zero_mod]
          omega
        · show retainMessages _ _ = _
          rw [hmax, retainMessages, if_pos (by rw [hmsgs]; rw [harrlen]; omega), hmsgs]
          rw [lastN, if_neg (by omega)]
    · -- the stored list is already first-3 ++ suffix of length L
      right
      have htakelen : (arr.take 3).length = 3 := by
        rw [List.length_take]
        omega
      have hdroplen : (arr.drop (arr.length - L)).length = L := by
        rw [List.length_drop]
        omega
      have hmsgslen : fctx.messages.length = 3 + L := by
        rw [hmsgs, List.length_append, htakelen, hdroplen]
      by_cases hcase : 3 + L + 1 ≤ 2 * W
      · -- no truncation this call: the suffix grows by one
        refine ⟨by rw [hlistlen]; omega, L + 1, by omega, by omega, ?_, ?_⟩
        · have hr : (l.length - (2 * W + 1)) % (W - 2) = L - W := by omega
          have hstep := mod_succ_of_lt (l.length - (2 * W + 1)) (W - 2) (L - W) hr
            (by omega)
          have hsub : l.length + 1 - (2 * W + 1) = (l.length - (2 * W + 1)) + 1 := by
            omega
          rw [hlistlen, hsub, hstep]
          omega
        · show retainMessages _ _ = _
          rw [hmax, retainMessages,
            if_neg (by rw [List.length_append, hmsgslen]; simp; omega), hmsgs]
          have h1 : (arr ++ [bm]).take 3 = arr.take 3 :=
            List.take_append_of_le_length (by rw [hlen]; omega)
          have h2 : (arr ++ [bm]).drop ((arr ++ [bm]).length - (L + 1)) =
              arr.drop (arr.length - L) ++ [bm] := by
            rw [harrlen]
            have hidx : l.length + 1 - (L + 1) = arr.length - L := by
              rw [hlen]
              omega
            rw [hidx]
            exact List.drop_append_of_le_length (by omega)
          rw [h1, h2, List.append_assoc]
      · -- the suffix is full: this call truncates back to length W
        have hLtop : L = 2 * W - 3 := by omega
        refine ⟨by rw [hlistlen]; omega, W, le_refl W, by omega, ?_, ?_⟩
        · have hr : (l.length - (2 * W + 1)) % (W - 2) = (W - 2) - 1 := by omega
          have hstep := mod_succ_wrap (l.length - (2 * W + 1)) (W - 2) hr (by omega)
          have hsub : l.length + 1 - (2 * W + 1) = (l.length - (2 * W + 1)) + 1 := by
            omega
          rw [hlistlen, hsub, hstep]
          omega
        · show retainMessages _ _ = _
          rw [hmax, retainMessages,
            if_pos (by rw [List.length_append, hmsgslen]; simp; omega), hmsgs]
          rw [List.append_assoc]
          have hXlen : (arr.take 3 ++ (arr.drop (arr.length - L) ++ [bm])).length =
              3 + L + 1 := by
            rw [List.length_append, List.length_append, htakelen, hdroplen,
              List.length_singleton]
            omega
          have htakeX : (arr.take 3 ++ (arr.drop (arr.length - L) ++ [bm])).take 3 =
              arr.take 3 := by
            rw [List.take_append_of_le_length htakelen.ge]
            simp [List.take_take]
          have hdropX : (arr.take 3 ++ (arr.drop (arr.length - L) ++ [bm])).drop
              ((arr.take 3 ++ (arr.drop (arr.length - L) ++ [bm])).length - W) =
              arr.drop (l.length + 1 - W) ++ [bm] := by
            rw [hXlen]
            have hidx1 : 3 + L + 1 - W = 3 + (L + 1 - W) := by omega
            rw [hidx1, List.drop_append_eq_append_drop,
              List.drop_eq_nil_of_le (by rw [htakelen]; omega), List.nil_append,
              htakelen]
            have hidx2 : 3 + (L + 1 - W) - 3 = L + 1 - W := by omega
            rw [hidx2, List.drop_append_of_le_length (by rw [hdroplen]; omega),
              List.drop_drop]
            have hidx3 : arr.length - L + (L + 1 - W) = l.length + 1 - W := by
              rw [hlen]
              omega
            rw [hidx3]
          rw [lastN, if_neg (by omega), htakeX, hdropX]
          have hrtake : (arr ++ [bm]).take 3 = arr.take 3 :=
            List.take_append_of_le_length (by rw [hlen]; omega)
          have hrdrop : (arr ++ [bm]).drop ((arr ++ [bm]).length - W) =
              arr.drop (l.length + 1 - W) ++ [bm] := by
            rw [harrlen]
            exact List.drop_append_of_le_length (by rw [hlen]; omega)
          rw [hrtake, hrdrop]

/-- C1 (amended): retention law of `add_message`. For every sequence of `N` calls on
one fresh conversation with window size `W ≥ 3`, once `N > 2·W` the message list has
length `3 + W + ((N − (2·W+1)) mod (W−2))` — between `3 + W` and `2·W`, equal to
`3 + W` exactly on the calls that trigger truncation, not `min(N, 3 + W)` in
general — and the first 3 and the last `W` turns of the original arrival sequence
are preserved verbatim, in order. -/
theorem C1_retention_amended (mgr : ContextManager) (ctx0 : ConversationContext)
    (W : Nat) (h0 : mgr.current_context = some ctx0) (hemp : ctx0.messages = [])
    (hW : mgr.max_context_messages = W) (hW3 : 3 ≤ W) (calls : List AddCall)
    (hN : 2 * W < calls.length) :
    ∃ fctx, (runAddsTrace mgr calls).1.current_context = some fctx ∧
      fctx.messages.length = 3 + W + (calls.length - (2 * W + 1)) % (W - 2) ∧
      3 + W ≤ fctx.messages.length ∧ fctx.messages.length ≤ 2 * W ∧
      fctx.messages.take 3 = (runAddsTrace mgr calls).2.take 3 ∧
      lastN W fctx.messages = lastN W (runAddsTrace mgr calls).2 := by
  obtain ⟨fctx, hcur, hmax, hlen, hshape⟩ :=
    runAdds_invariant mgr ctx0 W h0 hemp hW hW3 calls
  rcases hshape with ⟨hle, _⟩ | ⟨hgt, L, hLW, hL2W, hLmod, hmsgs⟩
  · omega
  · set arr := (runAddsTrace mgr calls).2 with harrdef
    have htakelen : (arr.take 3).length = 3 := by
      rw [List.length_take]
      omega
    have hdroplen : (arr.drop (arr.length - L)).length = L := by
      rw [List.length_drop]
      omega
    have hmlen : fctx.messages.length = 3 + L := by
      rw [hmsgs, List.length_append, htakelen, hdroplen]
    refine ⟨fctx, hcur, by rw [hmlen]; omega, by rw [hmlen]; omega,
      by rw [hmlen]; omega, ?_, ?_⟩
    · rw [hmsgs, List.take_append_of_le_length htakelen.ge, List.take_take]
      simp
    · rw [hmsgs, lastN, lastN, if_neg (by omega), if_neg (by omega),
        List.length_append, htakelen, hdroplen, List.drop_append_eq_append_drop,
        List.drop_eq_nil_of_le (by rw [htakelen]; omega), List.nil_append, htakelen,
        List.drop_drop]
      congr 1
      omega

/-- Witness for C1 (amended) at window size 3 with 7 calls: the final list has
length `3 + 3 + 0 = 6` and keeps the first 3 and last 3 arrivals. -/
theorem C1_retention_amended_witness :
    2 * 3 < c1wcalls.length ∧
    ∃ fctx, (runAddsTrace mgrW3 c1wcalls).1.current_context = some fctx ∧
      fctx.messages.length = 3 + 3 + (c1wcalls.length - (2 * 3 + 1)) % (3 - 2) ∧
      3 + 3 ≤ fctx.messages.length ∧ fctx.messages.length ≤ 2 * 3 ∧
      fctx.messages.take 3 = (runAddsTrace mgrW3 c1wcalls).2.take 3 ∧
      lastN 3 fctx.messages = lastN 3 (runAddsTrace mgrW3 c1wcalls).2 :=
  ⟨by decide,
   C1_retention_amended mgrW3 ctxEmpty 3 rfl rfl rfl (by omega) c1wcalls (by decide)⟩

/-- Digit characters below 10 are never an underscore or a minus sign. -/
theorem digitChar_ne_sep : ∀ d < 10, Nat.digitChar d ≠ '_' ∧ Nat.digitChar d ≠ '-' := by
  decide

/-- Digit characters below 10 determine the digit. -/
theorem digitChar_inj_lt : ∀ d < 10, ∀ e < 10,
    Nat.digitChar d = Nat.digitChar e → d = e := by
  decide

/-- The digit list does not depend on the fuel, as long as the fuel dominates. -/
theorem natToDigits_fuel : ∀ n f1 f2 : Nat, n ≤ f1 → n ≤ f2 →
    natToDigits f1 n = natToDigits f2 n := by
  intro n
  induction n using Nat.strong_induction_on with
  | _ n ih =>
    intro f1 f2 h1 h2
    cases n with
    | zero => cases f1 <;> cases f2 <;> rfl
    | succ m =>
      cases f1 with
      | zero => omega
      | succ g1 =>
        cases f2 with
        | zero => omega
        | succ g2 =>
          show natToDigits g1 ((m + 1) / 10) ++ _ = natToDigits g2 ((m + 1) / 10) ++ _
          have hdiv : (m + 1) / 10 < m + 1 := Nat.div_lt_self (by omega) (by omega)
          rw [ih ((m + 1) / 10) hdiv g1 g2 (by omega) (by omega)]

/-- Every character of a digit list is a digit character. -/
theorem natToDigits_chars (f : Nat) : ∀ (n : Nat) (c : Char), c ∈ natToDigits f n →
    ∃ d, d < 10 ∧ c = Nat.digitChar d := by
  induction f with
  | zero =>
    intro n c hc
    cases n <;> simp [natToDigits] at hc
  | succ g ih =>
    intro n c hc
    cases n with
    | zero => simp [natToDigits] at hc
    | succ m =>
      rw [show natToDigits (g + 1) (m + 1) =
          natToDigits g ((m + 1) / 10) ++ [Nat.digitChar ((m + 1) % 10)] from rfl] at hc
      rcases List.mem_append.mp hc with h | h
      · exact ih _ c h
      · rw [List.mem_singleton] at h
        exact ⟨(m + 1) % 10, Nat.mod_lt _ (by omega), h⟩

/-- With positive fuel the digit list of a positive number is nonempty. -/
theorem natToDigits_ne_nil (g m : Nat) : natToDigits (g + 1) (m + 1) ≠ [] := by
  show natToDigits g ((m + 1) / 10) ++ [Nat.digitChar ((m + 1) % 10)] ≠ []
  simp

/-- Digit lists determine the number (with the canonical fuel). -/
theorem natToDigits_inj : ∀ n m : Nat, natToDigits n n = natToDigits m m → n = m := by
  intro n
  induction n using Nat.strong_induction_on with
  | _ n ih =>
    intro m h
    cases n with
    | zero =>
      cases m with
      | zero => rfl
      | succ k => exact absurd h.symm (natToDigits_ne_nil k k)
    | succ j =>
      cases m with
      | zero => exact absurd h (natToDigits_ne_nil j j)
      | succ k =>
        have h' : natToDigits j ((j + 1) / 10) ++ [Nat.digitChar ((j + 1) % 10)] =
            natToDigits k ((k + 1) / 10) ++ [Nat.digitChar ((k + 1) % 10)] := h
        have hr := congrArg List.reverse h'
        simp only [List.reverse_append, List.reverse_singleton,
          List.singleton_append] at hr
        obtain ⟨hdigit, htail⟩ := List.cons.inj hr
        have hmod : (j + 1) % 10 = (k + 1) % 10 :=
          digitChar_inj_lt _ (Nat.mod_lt _ (by omega)) _ (Nat.mod_lt _ (by omega)) hdigit
        have hpre : natToDigits j ((j + 1) / 10) = natToDigits k ((k + 1) / 10) :=
          List.reverse_injective htail
        have hdivj : (j + 1) / 10 < j + 1 := Nat.div_lt_self (by omega) (by omega)
        have hdivk : (k + 1) / 10 < k + 1 := Nat.div_lt_self (by omega) (by omega)
        have hnorm : natToDigits ((j + 1) / 10) ((j + 1) / 10) =
            natToDigits ((k + 1) / 10) ((k + 1) / 10) := by
          rw [natToDigits_fuel ((j + 1) / 10) ((j + 1) / 10) j (le_refl _) (by omega),
            hpre, natToDigits_fuel ((k + 1) / 10) k ((k + 1) / 10) (by omega) (le_refl _)]
        have hdiv : (j + 1) / 10 = (k + 1) / 10 := ih ((j + 1) / 10) hdivj _ hnorm
        omega

/-- The decimal rendering of a positive number is never the string of zero. -/
theorem natRepr_pos_ne_zero (m : Nat) : natRepr (m + 1) ≠ "0" := by
  intro h
  have hdata : natToDigits (m + 1) (m + 1) = ['0'] := by
    have := congrArg String.data h
    rw [natRepr, if_neg (by omega)] at this
    exact this
  have h' : natToDigits m ((m + 1) / 10) ++ [Nat.digitChar ((m + 1) % 10)] =
      ['0'] := hdata
  have hlen := congrArg List.length h'
  rw [List.length_append, List.length_singleton, List.length_singleton] at hlen
  have hnil : natToDigits m ((m + 1) / 10) = [] :=
    List.length_eq_zero.mp (by omega)
  rw [hnil, List.nil_append] at h'
  have hdigit : Nat.digitChar ((m + 1) % 10) = '0' := by
    simpa using h'
  have hz : (m + 1) % 10 = 0 :=
    digitChar_inj_lt _ (Nat.mod_lt _ (by omega)) 0 (by omega) hdigit
  have hdiv0 : (m + 1) / 10 = 0 := by
    cases m with
    | zero => omega
    | succ m' =>
      by_contra hne
      obtain ⟨q, hq⟩ : ∃ q, (m' + 2) / 10 = q + 1 := ⟨(m' + 2) / 10 - 1, by omega⟩
      have hle : (m' + 2) / 10 ≤ m' + 1 := by
        have := Nat.div_lt_self (show 0 < m' + 2 by omega) (show 1 < 10 by omega)
        omega
      rw [natToDigits_fuel ((m' + 2) / 10) (m' + 1) ((m' + 2) / 10) hle (le_refl _),
        hq] at hnil
      exact natToDigits_ne_nil q q hnil
  omega

/-- Decimal rendering of naturals is injective. -/
theorem natRepr_inj (n m : Nat) (h : natRepr n = natRepr m) : n = m := by
  by_cases hn : n = 0
  · by_cases hm : m = 0
    · omega
    · obtain ⟨m', rfl⟩ : ∃ m', m = m' + 1 := ⟨m - 1, by omega⟩
      subst hn
      exact absurd h.symm (natRepr_pos_ne_zero m')
  · by_cases hm : m = 0
    · obtain ⟨n', rfl⟩ : ∃ n', n = n' + 1 := ⟨n - 1, by omega⟩
      subst hm
      exact absurd h (natRepr_pos_ne_zero n')
    · have hdata := congrArg String.data h
      rw [natRepr, natRepr, if_neg hn, if_neg hm] at hdata
      exact natToDigits_inj n m hdata

/-- No character of a decimal natural rendering is an underscore or minus sign. -/
theorem natRepr_chars (n : Nat) (c : Char) (hc : c ∈ (natRepr n).data) :
    c ≠ '_' ∧ c ≠ '-' := by
  rw [natRepr] at hc
  split_ifs at hc with hn
  · rw [List.mem_singleton.mp hc]
    decide
  · obtain ⟨d, hd, rfl⟩ := natToDigits_chars n n c hc
    exact digitChar_ne_sep d hd

/-- Decimal rendering of integers is injective. -/
theorem intRepr_inj (s t : Int) (h : intRepr s = intRepr t) : s = t := by
  cases s with
  | ofNat n =>
    cases t with
    | ofNat m => exact congrArg Int.ofNat (natRepr_inj n m h)
    | negSucc m =>
      exfalso
      have hdata := congrArg String.data h
      rw [show intRepr (Int.negSucc m) = "-" ++ natRepr (m + 1) from rfl,
        String.data_append] at hdata
      have hmem : '-' ∈ (natRepr n).data := by
        rw [show intRepr (Int.ofNat n) = natRepr n from rfl] at hdata
        rw [hdata]
        exact List.mem_cons_self _ _
      exact (natRepr_chars n '-' hmem).2 rfl
  | negSucc n =>
    cases t with
    | ofNat m =>
      exfalso
      have hdata := congrArg String.data h
      rw [show intRepr (Int.negSucc n) = "-" ++ natRepr (n + 1) from rfl,
        String.data_append,
        show intRepr (Int.ofNat m) = natRepr m from rfl] at hdata
      have hmem : '-' ∈ (natRepr m).data := by
        rw [← hdata]
        exact List.mem_cons_self _ _
      exact (natRepr_chars m '-' hmem).2 rfl
    | negSucc m =>
      have hdata := congrArg String.data h
      rw [show intRepr (Int.negSucc n) = "-" ++ natRepr (n + 1) from rfl,
        show intRepr (Int.negSucc m) = "-" ++ natRepr (m + 1) from rfl,
        String.data_append, String.data_append] at hdata
      have htail := (List.cons.inj hdata).2
      have := natRepr_inj (n + 1) (m + 1) (String.ext htail)
      exact congrArg Int.negSucc (by omega)

/-- A separator that occurs in neither prefix splits a concatenation uniquely. -/
theorem append_sep_inj (sep : Char) : ∀ (a1 a2 b1 b2 : List Char),
    sep ∉ a1 → sep ∉ a2 → a1 ++ sep :: b1 = a2 ++ sep :: b2 →
    a1 = a2 ∧ b1 = b2 := by
  intro a1
  induction a1 with
  | nil =>
    intro a2 b1 b2 h1 h2 h
    cases a2 with
    | nil => simpa using h
    | cons y ys =>
      rw [List.nil_append, List.cons_append] at h
      obtain ⟨hy, _⟩ := List.cons.inj h
      exact absurd (hy ▸ List.mem_cons_self y ys) h2
  | cons x xs ih =>
    intro a2 b1 b2 h1 h2 h
    cases a2 with
    | nil =>
      rw [List.nil_append, List.cons_append] at h
      obtain ⟨hx, _⟩ := List.cons.inj h
      exact absurd (hx ▸ List.mem_cons_self x xs) h1
    | cons y ys =>
      rw [List.cons_append, List.cons_append] at h
      obtain ⟨hxy, htail⟩ := List.cons.inj h
      have hrec := ih ys b1 b2 (fun hm => h1 (List.mem_cons_of_mem _ hm))
        (fun hm => h2 (List.mem_cons_of_mem _ hm)) htail
      exact ⟨by rw [hxy, hrec.1], hrec.2⟩

/-- The unfolded character list of a message id. -/
theorem idRender_data (len : Nat) (t : Int) :
    (idRender len t).data =
      "msg_".data ++ ((natRepr len).data ++ ('_' :: (intRepr t).data)) := by
  rw [idRender, String.data_append, String.data_append, String.data_append,
    List.append_assoc, List.append_assoc]
  rfl

/-- Message id strings determine the millisecond component. -/
theorem idRender_inj_t (l1 l2 : Nat) (t1 t2 : Int)
    (h : idRender l1 t1 = idRender l2 t2) : t1 = t2 := by
  have hdata := congrArg String.data h
  rw [idRender_data, idRender_data] at hdata
  have hcut := List.append_cancel_left hdata
  have hsplit := append_sep_inj '_' (natRepr l1).data (natRepr l2).data
    (intRepr t1).data (intRepr t2).data
    (fun hm => (natRepr_chars l1 '_' hm).1 rfl)
    (fun hm => (natRepr_chars l2 '_' hm).1 rfl) hcut
  exact intRepr_inj t1 t2 (String.ext hsplit.2)

/-- The timestamps of the traced arrivals are exactly the clock ticks of the calls. -/
theorem trace_timestamps (mgr : ContextManager) (calls : List AddCall) :
    (runAddsTrace mgr calls).2.map (fun m => m.timestamp) =
      calls.map (fun c => c.now) := by
  induction calls using List.reverseRecOn with
  | nil => rfl
  | append_singleton l c ih =>
    rw [runAddsTrace_append_one, List.map_append, List.map_append, ih]
    rfl

/-- Every traced arrival's id is the rendering of some index with its own
timestamp as millisecond component. -/
theorem trace_id_shape (mgr : ContextManager) (calls : List AddCall)
    (m : ConversationMessage) (hm : m ∈ (runAddsTrace mgr calls).2) :
    ∃ len, m.id = idRender len m.timestamp := by
  revert hm
  induction calls using List.reverseRecOn with
  | nil =>
    intro hm
    simp [runAddsTrace] at hm
  | append_singleton l c ih =>
    intro hm
    rw [runAddsTrace_append_one] at hm
    rcases List.mem_append.mp hm with h | h
    · exact ih h
    · rw [List.mem_singleton] at h
      subst h
      exact ⟨_, rfl⟩

/-- C9 (amended): turn-id invariant of `add_message`. On one fresh conversation with
window size `W ≥ 3`, for every call sequence whose millisecond clock strictly
increases call-to-call, the final message list is a subsequence of the arrival
sequence (ids are assigned in arrival order), every turn id in it is unique, and the
timestamps are non-decreasing along the list. Without the strict-clock hypothesis
uniqueness can fail: the retention policy resets the length-based index while a
stalled millisecond clock repeats the time component. -/
theorem C9_ids_amended (mgr : ContextManager) (ctx0 : ConversationContext)
    (W : Nat) (h0 : mgr.current_context = some ctx0) (hemp : ctx0.messages = [])
    (hW : mgr.max_context_messages = W) (hW3 : 3 ≤ W) (calls : List AddCall)
    (hmono : List.Pairwise (· < ·) (calls.map (fun c => c.now))) :
    ∃ fctx, (runAddsTrace mgr calls).1.current_context = some fctx ∧
      List.Sublist fctx.messages (runAddsTrace mgr calls).2 ∧
      (fctx.messages.map (fun m => m.id)).Nodup ∧
      List.Pairwise (· ≤ ·) (fctx.messages.map (fun m => m.timestamp)) := by
  obtain ⟨fctx, hcur, hmax, hlen, hshape⟩ :=
    runAdds_invariant mgr ctx0 W h0 hemp hW hW3 calls
  have harrp : (runAddsTrace mgr calls).2.Pairwise
      (fun a b => a.timestamp < b.timestamp) := by
    rw [← trace_timestamps mgr calls] at hmono
    exact List.pairwise_map.mp hmono
  have hsub : List.Sublist fctx.messages (runAddsTrace mgr calls).2 := by
    rcases hshape with ⟨_, hmsgs⟩ | ⟨hgt, L, hLW, hL2W, _, hmsgs⟩
    · rw [hmsgs]
    · rw [hmsgs]
      have hk3 : 3 ≤ (runAddsTrace mgr calls).2.length - L := by omega
      have hdropsub : List.Sublist
          ((runAddsTrace mgr calls).2.drop ((runAddsTrace mgr calls).2.length - L))
          ((runAddsTrace mgr calls).2.drop 3) := by
        have : (runAddsTrace mgr calls).2.drop ((runAddsTrace mgr calls).2.length - L) =
            ((runAddsTrace mgr calls).2.drop 3).drop
              ((runAddsTrace mgr calls).2.length - L - 3) := by
          rw [List.drop_drop]
          congr 1
          omega
        rw [this]
        exact List.drop_sublist _ _
      have := hdropsub.append_left ((runAddsTrace mgr calls).2.take 3)
      rwa [List.take_append_drop] at this
  have hidne : (runAddsTrace mgr calls).2.Pairwise (fun a b => a.id ≠ b.id) := by
    refine List.Pairwise.imp_of_mem ?_ harrp
    intro a b ha hb hlt heq
    obtain ⟨la, hia⟩ := trace_id_shape mgr calls a ha
    obtain ⟨lb, hib⟩ := trace_id_shape mgr calls b hb
    rw [hia, hib] at heq
    have := idRender_inj_t la lb a.timestamp b.timestamp heq
    omega
  refine ⟨fctx, hcur, hsub, ?_, ?_⟩
  · have harrnodup : ((runAddsTrace mgr calls).2.map (fun m => m.id)).Nodup :=
      List.pairwise_map.mpr hidne
    exact harrnodup.sublist (hsub.map _)
  · have hle : (runAddsTrace mgr calls).2.Pairwise
        (fun a b => a.timestamp ≤ b.timestamp) :=
      harrp.imp (fun h => le_of_lt h)
    exact List.pairwise_map.mpr (hle.sublist hsub)

/-- Witness for C9 (amended) at window size 3 with 7 strictly clocked calls. -/
theorem C9_ids_amended_witness :
    List.Pairwise (· < ·) (c1wcalls.map (fun c => c.now)) ∧
    ∃ fctx, (runAddsTrace mgrW3 c1wcalls).1.current_context = some fctx ∧
      List.Sublist fctx.messages (runAddsTrace mgrW3 c1wcalls).2 ∧
      (fctx.messages.map (fun m => m.id)).Nodup ∧
      List.Pairwise (· ≤ ·) (fctx.messages.map (fun m => m.timestamp)) :=
  ⟨by decide,
   C9_ids_amended mgrW3 ctxEmpty 3 rfl rfl rfl (by omega) c1wcalls (by decide)⟩
